import Mathlib

/-!
# Pg2Nextcloud: a verification development for `main.go`

The program dumps a database with `pg_dumpall`, uploads the dump to a WebDAV
server with a streamed multipart PUT, and removes the remote directory that is
three days old.

The embedding is shallow.  Every function of `main.go` becomes a Lean function
that threads a trace of the external effects it performs (`Trace`).  Whatever the
outside world answers (the clock, the dump tool, the HTTP server, the file
system, the goroutine schedule) is read from a `World`, whose answers may depend
on the whole history so far.  Go values `(T, error)` are pairs whose error part
is an `Option`: `none` is `nil`.
-/

namespace Pg2Nextcloud

/-! ## Data model -/

/-- A non-nil Go `error` value, identified by its message. -/
abbrev Error := String

/-- One byte. -/
abbrev Byte := Fin 256

/-- A byte string. -/
abbrev Bytes := List Byte

/-- The part of `*http.Response` the program looks at. -/
structure Response where
  statusCode : Nat
  deriving DecidableEq, Repr

/-- What `http.DefaultClient.Do` returns.  The net/http documentation gives three
shapes: `(resp, nil)`; `(nil, err)`; and `(resp, err)` with both non-nil, which
"only occurs when CheckRedirect fails" (with the default client: after ten
consecutive redirects). -/
inductive DoResult where
  | response (resp : Response)
  | failure (err : Error)
  | redirectFailure (resp : Response) (err : Error)
  deriving DecidableEq, Repr

/-- The `resp` component of the Go pair. -/
def DoResult.resp : DoResult → Option Response
  | .response r => some r
  | .failure _ => none
  | .redirectFailure r _ => some r

/-- The `err` component of the Go pair. -/
def DoResult.err : DoResult → Option Error
  | .response _ => none
  | .failure e => some e
  | .redirectFailure _ e => some e

/-- An `io.Pipe` as seen from its two ends: the bytes written so far, in order,
and how the write end was closed.  `wclosed = none`: still open;
`some none`: `Close()`, after which reads drain the data and then report `io.EOF`;
`some (some e)`: `CloseWithError(e)`, after which reads report `e`. -/
structure Pipe where
  data : Bytes
  wclosed : Option (Option Error)
  deriving DecidableEq, Repr

/-- What a reader that has drained the pipe gets from its next `Read`. -/
inductive ReadEnd where
  | blocked
  | eof
  | failed (err : Error)
  deriving DecidableEq, Repr

/-- The terminal condition of the read end. -/
def Pipe.readEnd (p : Pipe) : ReadEnd :=
  match p.wclosed with
  | none => .blocked
  | some none => .eof
  | some (some e) => .failed e

/-- The method `PipeWriter.Write`: appends to the stream. -/
def Pipe.write (p : Pipe) (b : Bytes) : Pipe :=
  { p with data := p.data ++ b }

/-- The method `PipeWriter.CloseWithError`: the first close wins. -/
def Pipe.closeWithError (p : Pipe) (err : Option Error) : Pipe :=
  match p.wclosed with
  | none => { p with wclosed := some err }
  | some _ => p

/-- The method `PipeWriter.Close`, which is `CloseWithError(nil)`. -/
def Pipe.close (p : Pipe) : Pipe :=
  p.closeWithError none

/-- An outgoing `*http.Request`: method, URL, the basic-auth pair, the
Content-Type header and the body.  For the upload the body is the read end of
the pipe, recorded as the stream the producer goroutine offers on it. -/
structure Request where
  method : String
  url : String
  basicAuth : Option (String × String)
  contentType : Option String
  body : Option Pipe
  deriving DecidableEq, Repr

/-- An external effect performed by the program. -/
inductive Event where
  | now
  | run (name : String) (args : List String)
  | printed (text : String)
  | newRequest (method url : String)
  | send (req : Request)
  | openFile (path : String)
  | closeFile (path : String)
  | remove (path : String)
  deriving DecidableEq, Repr

/-- The history of effects, oldest first. -/
abbrev Trace := List Event

/-- A wall-clock reading in the local zone: the fields `Time.Date` and
`Time.Clock` return. -/
structure DateTime where
  year : Int
  month : Nat
  day : Nat
  hour : Nat
  minute : Nat
  second : Nat
  deriving DecidableEq, Repr

/-- A period of a time zone as `Location.lookup` of Go reports it: the offset in
seconds east of UTC, in force from the Unix second `start` up to `stop`,
exclusive. -/
structure Zone where
  offset : Int
  start : Int
  stop : Int
  deriving DecidableEq, Repr

/-- A Go `*time.Location`: for a Unix second, the zone period in force then. -/
structure Location where
  lookup : Int → Zone

/-- How a call ends: it returns a value, or the process is killed by a panic
before the call is over. -/
inductive Outcome (α : Type) where
  | returned (value : α)
  | crashed
  deriving DecidableEq, Repr

/-- Result of `cmd.Run()` with both output buffers. -/
structure RunResult where
  stdout : String
  stderr : String
  err : Option Error
  deriving DecidableEq, Repr

/-- What happens to the four steps of the producer goroutine of
`uploadFileMultipart`.  `copy = some (n, e)`: `io.Copy` moved `n` bytes of the
file and then returned `e`. -/
structure Faults where
  createFormFile : Option Error
  copy : Option (Nat × Error)
  formClose : Option Error
  bodyClose : Option Error
  deriving DecidableEq, Repr

/-- The three package-level variables, after `main` has parsed the flags. -/
structure Config where
  baseURL : String
  username : String
  password : String
  deriving DecidableEq, Repr

/-- The outside world.  Every answer may depend on the history so far.
`parseURL` is the one way `http.NewRequest` can fail here, the parse of the URL
(the four methods the program passes are constant, valid method tokens).
`zone` is the local time zone and `clock` the reading of a clock in it.
`observed` is the schedule of the producer goroutine: how many of its four
`setErr` calls have taken effect when `http.DefaultClient.Do` returns and the
caller reads `writeErr` (the source has no join between the two). -/
structure World where
  cfg : Config
  zone : Location
  clock : Trace → DateTime
  runCmd : Trace → String → List String → RunResult
  parseURL : String → Option Error
  roundTrip : Trace → Request → DoResult
  openFile : Trace → String → Except Error Bytes
  removeFile : Trace → String → Option Error
  boundary : Trace → String
  faults : Trace → Faults
  observed : Trace → Nat

/-! ## `newAuthedReq` and the remote directory operations -/

/-- Go `newAuthedReq(method, url, body)`. -/
def newAuthedReq (w : World) (method url : String) (body : Option Pipe) (t : Trace) :
    Except Error Request × Trace :=
  let t := t ++ [Event.newRequest method url]
  match w.parseURL url with
  | some err => (.error err, t)
  | none =>
    (.ok { method := method, url := url,
           basicAuth := some (w.cfg.username, w.cfg.password),
           contentType := none, body := body }, t)

/-- Go `http.DefaultClient.Do(req)`. -/
def clientDo (w : World) (req : Request) (t : Trace) : DoResult × Trace :=
  let t := t ++ [Event.send req]
  (w.roundTrip t req, t)

/-- Go `fmt.Sprintf("%s/%s", baseURL, dirName)`. -/
def dirURL (w : World) (dirName : String) : String :=
  w.cfg.baseURL ++ "/" ++ dirName

/-- Go `createDirName`. -/
def createDirName (w : World) (dirName : String) (t : Trace) :
    (Bool × Option Error) × Trace :=
  match newAuthedReq w "MKCOL" (dirURL w dirName) none t with
  | (.error err, t) => ((false, some err), t)
  | (.ok req, t) =>
    match clientDo w req t with
    | (.failure err, t) => ((false, some err), t)
    | (.redirectFailure _ err, t) => ((false, some err), t)
    | (.response res, t) => ((res.statusCode == 201, none), t)

/-- Go `dirNameExists`. -/
def dirNameExists (w : World) (dirName : String) (t : Trace) :
    (Bool × Option Error) × Trace :=
  match newAuthedReq w "GET" (dirURL w dirName) none t with
  | (.error err, t) => ((false, some err), t)
  | (.ok req, t) =>
    match clientDo w req t with
    | (.failure err, t) => ((false, some err), t)
    | (.redirectFailure _ err, t) => ((false, some err), t)
    | (.response res, t) => ((res.statusCode == 200, none), t)

/-- Go `deleteDirName`. -/
def deleteDirName (w : World) (dirName : String) (t : Trace) :
    (Bool × Option Error) × Trace :=
  match newAuthedReq w "DELETE" (dirURL w dirName) none t with
  | (.error err, t) => ((false, some err), t)
  | (.ok req, t) =>
    match clientDo w req t with
    | (.failure err, t) => ((false, some err), t)
    | (.redirectFailure _ err, t) => ((false, some err), t)
    | (.response res, t) => ((res.statusCode == 204, none), t)

/-! ## The streaming multipart uploader -/

/-- The UTF-8 bytes of a string. -/
def utf8 (s : String) : Bytes :=
  s.toList.flatMap (fun c => (String.utf8EncodeChar c).map (fun b => Fin.ofNat b.toNat))

/-- Go `escapeQuotes` of mime/multipart: backslash and double quote are
escaped with a backslash. -/
def escapeQuotes (s : String) : String :=
  String.join (s.toList.map (fun c =>
    if c = Char.ofNat 92 then "\\\\" else if c = Char.ofNat 34 then "\\\"" else String.singleton c))

/-- What `formWriter.CreateFormFile(fieldname, filename)` writes for the first
part: the boundary line, the two part headers in sorted order, an empty line. -/
def partHeader (boundary fieldname filename : String) : Bytes :=
  utf8 ("--" ++ boundary ++ "\r\n" ++
    "Content-Disposition: form-data; name=\"" ++ escapeQuotes fieldname ++
      "\"; filename=\"" ++ escapeQuotes filename ++ "\"\r\n" ++
    "Content-Type: application/octet-stream\r\n" ++
    "\r\n")

/-- What `formWriter.Close()` writes: the closing boundary line. -/
def closingBoundary (boundary : String) : Bytes :=
  utf8 ("\r\n--" ++ boundary ++ "--\r\n")

/-- Go `formWriter.FormDataContentType()` (the random boundary is hexadecimal and
needs no quoting). -/
def formDataContentType (boundary : String) : String :=
  "multipart/form-data; boundary=" ++ boundary

/-- The variables `writeErr` and `errOnce`. -/
structure ErrCell where
  writeErr : Option Error
  done : Bool
  deriving DecidableEq, Repr

/-- The closure `setErr`: a non-nil error is stored by `errOnce.Do`, which runs
its argument the first time only. -/
def setErr (c : ErrCell) (err : Option Error) : ErrCell :=
  match err with
  | none => c
  | some e => if c.done then c else { writeErr := some e, done := true }

/-- State of the producer goroutine: the error cell, the pipe it writes to,
whether `partWriter` is non-nil, and whether the goroutine has panicked. -/
structure Producer where
  cell : ErrCell
  pipe : Pipe
  partWriter : Bool
  panicked : Bool
  deriving DecidableEq, Repr

/-- The state in which the goroutine starts. -/
def Producer.init : Producer :=
  { cell := { writeErr := none, done := false },
    pipe := { data := [], wclosed := none },
    partWriter := false,
    panicked := false }

/-- The bytes of the file `io.Copy` has to move before it returns. -/
def copyMoved (fl : Faults) (file : Bytes) : Bytes :=
  match fl.copy with
  | none => file
  | some (n, _) => file.take n

/-- Statement number `i` (from 0) of the goroutine, lines 112 to 117.  A step
that fails writes nothing more than its fault says, and the goroutine goes on
with the next statement whatever the step returned: the error of
`CreateFormFile` is recorded and the nil `partWriter` it returned is handed to
`io.Copy` all the same.  With a nil `partWriter` `io.Copy` returns only if it
has no byte to move; its first `Write` on the nil interface panics.  A
goroutine that has panicked runs no further statement. -/
def producerStep (boundary path : String) (file : Bytes) (fl : Faults) (i : Nat)
    (s : Producer) : Producer :=
  if s.panicked then s
  else
    match i with
    | 0 =>
      match fl.createFormFile with
      | none =>
        { s with cell := setErr s.cell none,
                 pipe := s.pipe.write (partHeader boundary "file" path),
                 partWriter := true }
      | some e => { s with cell := setErr s.cell (some e) }
    | 1 =>
      if s.partWriter then
        { s with cell := setErr s.cell (fl.copy.map Prod.snd),
                 pipe := s.pipe.write (copyMoved fl file) }
      else if copyMoved fl file = [] then
        { s with cell := setErr s.cell (fl.copy.map Prod.snd) }
      else { s with panicked := true }
    | 2 =>
      match fl.formClose with
      | none =>
        { s with cell := setErr s.cell none,
                 pipe := s.pipe.write (closingBoundary boundary) }
      | some e => { s with cell := setErr s.cell (some e) }
    | 3 => { s with cell := setErr s.cell fl.bodyClose, pipe := s.pipe.close }
    | _ => s

/-- The goroutine after its first `k` statements. -/
def producer (boundary path : String) (file : Bytes) (fl : Faults) (k : Nat) : Producer :=
  (List.range k).foldl (fun s i => producerStep boundary path file fl i s) Producer.init

/-- Go `uploadFileMultipart(url, path)`.  The goroutine is started before the
request is built; the request body is the read end of the pipe; after
`http.DefaultClient.Do` has returned, `writeErr` is read as the goroutine has
left it by then.  A panic in the goroutine kills the process: such a run ends
at this call, whether the panic strikes before or after `Do` returns, and the
model does not follow it further.  (When the request cannot be built nobody
reads the pipe and the goroutine stays blocked in its first write.) -/
def uploadFileMultipart (w : World) (url path : String) (t : Trace) :
    Outcome (Option Response × Option Error) × Trace :=
  let t := t ++ [Event.openFile path]
  match w.openFile t path with
  | .error err => (.returned (none, some err), t)
  | .ok file =>
    let boundary := w.boundary t
    let fl := w.faults t
    match newAuthedReq w "PUT" url (some (producer boundary path file fl 4).pipe) t with
    | (.error err, t) => (.returned (none, some err), t ++ [Event.closeFile path])
    | (.ok req, t) =>
      let req := { req with contentType := some (formDataContentType boundary) }
      let (res, t) := clientDo w req t
      if (producer boundary path file fl 4).panicked then (.crashed, t)
      else
        match (producer boundary path file fl (w.observed t)).cell.writeErr with
        | some writeErr => (.returned (none, some writeErr), t ++ [Event.closeFile path])
        | none => (.returned (res.resp, res.err), t ++ [Event.closeFile path])

/-! ## Go `time`: civil dates, `AddDate`, `Format`

The model follows `time.Date`, `absDate` and `locabs` of the Go standard library:
the day arithmetic over an absolute epoch and the lookup of the zone offset in
the `Location`. -/

/-- Go `absoluteZeroYear`. -/
def absoluteZeroYear : Int := -292277022399

/-- Go `daysPer400Years`. -/
def daysPer400Years : Nat := 365 * 400 + 97

/-- Go `daysPer100Years`. -/
def daysPer100Years : Nat := 365 * 100 + 24

/-- Go `daysPer4Years`. -/
def daysPer4Years : Nat := 365 * 4 + 1

/-- Go `secondsPerDay`. -/
def secondsPerDay : Nat := 86400

/-- Go `isLeap`. -/
def isLeap (year : Int) : Bool :=
  year % 4 == 0 && (year % 100 != 0 || year % 400 == 0)

/-- Go `daysBefore[i]`: the days of a non-leap year before month `i + 1`. -/
def daysBefore (i : Nat) : Nat :=
  [0, 31, 59, 90, 120, 151, 181, 212, 243, 273, 304, 334, 365].getD i 0

/-- Go `norm(hi, lo, base)`. -/
def norm (hi lo base : Int) : Int × Int :=
  let (hi, lo) :=
    if lo < 0 then
      let n := (-lo - 1) / base + 1
      (hi - n, lo + n * base)
    else (hi, lo)
  if lo ≥ base then
    let n := lo / base
    (hi + n, lo - n * base)
  else (hi, lo)

/-- Go `daysSinceEpoch(year)`, in `uint64` arithmetic. -/
def daysSinceEpoch (year : Int) : Nat :=
  let y := ((year - absoluteZeroYear) % 2 ^ 64).toNat
  let n := y / 400
  let y := y - 400 * n
  let d := daysPer400Years * n
  let n := y / 100
  let y := y - 100 * n
  let d := d + daysPer100Years * n
  let n := y / 4
  let y := y - 4 * n
  let d := d + daysPer4Years * n
  let n := y
  let d := d + 365 * n
  d % 2 ^ 64

/-- The absolute second count `abs` that `time.Date(year, month, day, hour, min,
sec, ...)` computes, for clock fields that are already in range. -/
def dateAbs (year month day : Int) (hour min sec : Nat) : Nat :=
  let (year, m) := norm year (month - 1) 12
  let month := m + 1
  let d : Int := daysSinceEpoch year
  let d := d + daysBefore (month - 1).toNat
  let d := if isLeap year && month ≥ 3 then d + 1 else d
  let d := (d + (day - 1)) % 2 ^ 64
  ((d * secondsPerDay + (hour * 3600 + min * 60 + sec)) % 2 ^ 64).toNat

/-- Go `absDate(abs, true)`: year, month and day of an absolute second count. -/
def absDate (abs : Nat) : Int × Nat × Nat :=
  let d := abs / secondsPerDay
  let n := d / daysPer400Years
  let y := 400 * n
  let d := d - daysPer400Years * n
  let n := d / daysPer100Years
  let n := n - n / 4
  let y := y + 100 * n
  let d := d - daysPer100Years * n
  let n := d / daysPer4Years
  let y := y + 4 * n
  let d := d - daysPer4Years * n
  let n := d / 365
  let n := n - n / 4
  let y := y + n
  let d := d - 365 * n
  let year : Int := (y : Int) + absoluteZeroYear
  if isLeap year && d == 31 + 29 - 1 then (year, 2, 29)
  else
    let day := if isLeap year && d > 31 + 29 - 1 then d - 1 else d
    let month := day / 31
    let endDay := daysBefore (month + 1)
    if day ≥ endDay then (year, month + 2, day - endDay + 1)
    else (year, month + 1, day - daysBefore month + 1)

/-- Go `unixToInternal + internalToAbsolute`: the absolute second count of
1970-01-01 00:00:00. -/
def unixToAbsolute : Int := 9223372028715321600

/-- The conversion to `int64`. -/
def wrapInt64 (x : Int) : Int :=
  (x + 2 ^ 63) % 2 ^ 64 - 2 ^ 63

/-- The zone offset `time.Date` subtracts from `unix`, the wall-clock seconds
taken as UTC: the offset in force at `unix` if `unix` less that offset lies in
the same zone period, else the offset in force at `unix` less that offset; and
nothing if the first offset is zero. -/
def Location.dateOffset (loc : Location) (unix : Int) : Int :=
  let z := loc.lookup unix
  if z.offset ≠ 0 then
    let utc := unix - z.offset
    if utc < z.start ∨ utc ≥ z.stop then (loc.lookup utc).offset
    else z.offset
  else 0

/-- Go `t.AddDate(years, months, days)` for a time `t` in `loc`, read back as
`Format` does through `locabs`, `absDate` and `absClock`. -/
def DateTime.addDate (loc : Location) (t : DateTime) (years months days : Int) : DateTime :=
  let abs := dateAbs (t.year + years) (t.month + months) (t.day + days)
    t.hour t.minute t.second
  let unix := wrapInt64 ((abs : Int) - unixToAbsolute)
  let unix := unix - loc.dateOffset unix
  let sec := unix + (loc.lookup unix).offset
  let abs := ((sec + unixToAbsolute) % 2 ^ 64).toNat
  let (year, month, day) := absDate abs
  let sec := abs % secondsPerDay
  { year := year, month := month, day := day,
    hour := sec / 3600, minute := sec % 3600 / 60, second := sec % 60 }

/-- The digit loop of Go `appendInt`: the decimal digits of `u` are put in front
of `acc`, last digit first.  The fuel is the size of the 20-byte buffer. -/
def decimalDigits : Nat → Nat → List Char → List Char
  | 0, _, acc => acc
  | fuel + 1, u, acc =>
    if u ≥ 10 then decimalDigits fuel (u / 10) (Char.ofNat (48 + (u - u / 10 * 10)) :: acc)
    else Char.ofNat (48 + u) :: acc

/-- Go `appendInt(b, x, width)`: decimal, zero-padded to `width`, with a minus
sign in front for a negative number. -/
def appendInt (x : Int) (width : Nat) : String :=
  let digits := decimalDigits 20 x.natAbs []
  let padded := List.replicate (width - digits.length) '0' ++ digits
  String.mk (if x < 0 then '-' :: padded else padded)

/-- Go `t.Format(time.DateOnly)`, layout "2006-01-02". -/
def DateTime.formatDateOnly (t : DateTime) : String :=
  appendInt t.year 4 ++ "-" ++ appendInt t.month 2 ++ "-" ++ appendInt t.day 2

/-- Go `t.Format(time.TimeOnly)`, layout "15:04:05". -/
def DateTime.formatTimeOnly (t : DateTime) : String :=
  appendInt t.hour 2 ++ ":" ++ appendInt t.minute 2 ++ ":" ++ appendInt t.second 2

/-- Go `time.Now()`. -/
def timeNow (w : World) (t : Trace) : DateTime × Trace :=
  let t := t ++ [Event.now]
  (w.clock t, t)

/-! ## The remaining functions of `main.go` -/

/-- Go `getDirName`. -/
def getDirName (w : World) (t : Trace) : String × Trace :=
  let (now, t) := timeNow w t
  (now.formatDateOnly, t)

/-- Go `getFileName`. -/
def getFileName (w : World) (t : Trace) : String × Trace :=
  let (now, t) := timeNow w t
  (now.formatTimeOnly, t)

/-- Go `createBackup`. -/
def createBackup (w : World) (fileName : String) (t : Trace) : Option Error × Trace :=
  let t := t ++ [Event.run "pg_dumpall" ["-f", fileName]]
  let r := w.runCmd t "pg_dumpall" ["-f", fileName]
  let t := t ++ [Event.printed ("Stdout: " ++ r.stdout ++ "\n")]
  let t := t ++ [Event.printed ("Stderr: " ++ r.stderr ++ "\n")]
  (r.err, t)

/-- Go `deleteLocalBackup`. -/
def deleteLocalBackup (w : World) (fileName : String) (t : Trace) : Option Error × Trace :=
  let t := t ++ [Event.remove fileName]
  (w.removeFile t fileName, t)

/-- Go `fmt.Println(err)`. -/
def println (err : Error) (t : Trace) : Trace :=
  t ++ [Event.printed (err ++ "\n")]

/-- Go `cleanOldBackups`. -/
def cleanOldBackups (w : World) (t : Trace) : Option Error × Trace :=
  let (now, t) := timeNow w t
  let threeDaysAgoDirName := (now.addDate w.zone 0 0 (-3)).formatDateOnly
  match dirNameExists w threeDaysAgoDirName t with
  | ((_, some err), t) => (some err, t)
  | ((false, none), t) => (none, t)
  | ((true, none), t) =>
    match deleteDirName w threeDaysAgoDirName t with
    | ((_, some err), t) => (some err, t)
    | ((_, none), t) => (none, t)

/-- One pass through the body of the backup loop of `main` (lines 36 to 69): the
two names, how each call ended (`none` for a call that was not reached), and
the trace at the end of the pass. -/
structure Iteration where
  dirName : String
  fileName : String
  backup : Option Error
  existsRes : Option (Bool × Option Error)
  createRes : Option (Bool × Option Error)
  uploadRes : Option (Outcome (Option Response × Option Error))
  deleteRes : Option (Option Error)
  trace : Trace
  deriving DecidableEq, Repr

/-- Go `fmt.Sprintf("%s/%s/%s", baseURL, dirName, fileName)`. -/
def uploadURL (w : World) (dirName fileName : String) : String :=
  w.cfg.baseURL ++ "/" ++ dirName ++ "/" ++ fileName

/-- The body of the backup loop, lines 36 to 69.  Every `continue` ends the
pass.  Each call returns its result together with the trace it leaves.  A
pass in which the process is killed ends there. -/
def backupIteration (w : World) (t : Trace) : Iteration :=
  let dir := getDirName w t
  let file := getFileName w dir.2
  let dirName := dir.1
  let fileName := file.1
  let it : Iteration :=
    { dirName := dirName, fileName := fileName, backup := none, existsRes := none,
      createRes := none, uploadRes := none, deleteRes := none, trace := file.2 }
  let backup := createBackup w fileName file.2
  match backup.1 with
  | some err => { it with backup := some err, trace := println err backup.2 }
  | none =>
    let found := dirNameExists w dirName backup.2
    match found.1.2 with
    | some err =>
      { it with existsRes := some (found.1.1, some err), trace := println err found.2 }
    | none =>
      let it := { it with existsRes := some (found.1.1, none) }
      let created : Option (Bool × Option Error) × Trace :=
        if !found.1.1 then
          (some (createDirName w dirName found.2).1, (createDirName w dirName found.2).2)
        else (none, found.2)
      match created.1 with
      | some (made, some err) =>
        { it with createRes := some (made, some err), trace := println err created.2 }
      | createRes =>
        let it := { it with createRes := createRes }
        let upload := uploadFileMultipart w (uploadURL w dirName fileName) fileName created.2
        match upload.1 with
        | .crashed => { it with uploadRes := some .crashed, trace := upload.2 }
        | .returned res =>
          match res.2 with
          | some err =>
            { it with uploadRes := some (.returned (res.1, some err)),
                      trace := println err upload.2 }
          | none =>
            let it := { it with uploadRes := some (.returned (res.1, none)) }
            let removed := deleteLocalBackup w fileName upload.2
            match removed.1 with
            | some err =>
              { it with deleteRes := some (some err), trace := println err removed.2 }
            | none => { it with deleteRes := some none, trace := removed.2 }

/-- The backup loop after at most `n` passes (the ticker only spaces the passes
out); it ends with the process. -/
def backupLoop (w : World) : Nat → Trace → Trace
  | 0, t => t
  | n + 1, t =>
    match (backupIteration w t).uploadRes with
    | some .crashed => (backupIteration w t).trace
    | _ => backupLoop w n (backupIteration w t).trace

/-- The retention loop after `n` passes, lines 75 to 81. -/
def retentionLoop (w : World) : Nat → Trace → Trace
  | 0, t => t
  | n + 1, t =>
    match cleanOldBackups w t with
    | (some err, t) => retentionLoop w n (println err t)
    | (none, t) => retentionLoop w n t

/-! ## Specification-side definitions -/

/-- The length of a month of the Gregorian calendar: a year is a leap year when
it is divisible by 4, except the century years not divisible by 400. -/
def daysIn (year : Int) (month : Nat) : Nat :=
  if month = 2 then
    if year % 4 = 0 ∧ (year % 100 ≠ 0 ∨ year % 400 = 0) then 29 else 28
  else if month = 4 ∨ month = 6 ∨ month = 9 ∨ month = 11 then 30
  else 31

/-- A reading of a real clock: a date of the calendar and a time of day. -/
def DateTime.Valid (t : DateTime) : Prop :=
  1 ≤ t.month ∧ t.month ≤ 12 ∧ 1 ≤ t.day ∧ t.day ≤ daysIn t.year t.month ∧
    t.hour < 24 ∧ t.minute < 60 ∧ t.second < 60

instance (t : DateTime) : Decidable t.Valid := by
  unfold DateTime.Valid
  infer_instance

/-- The same time of day on the calendar day before. -/
def DateTime.dayBefore (t : DateTime) : DateTime :=
  if 1 < t.day then { t with day := t.day - 1 }
  else if 1 < t.month then
    { t with month := t.month - 1, day := daysIn t.year (t.month - 1) }
  else { t with year := t.year - 1, month := 12, day := 31 }

/-- The calendar date three days earlier. -/
def DateTime.threeDaysEarlier (t : DateTime) : DateTime :=
  t.dayBefore.dayBefore.dayBefore

/-- A clock reading as seconds since 1970-01-01 00:00:00 on the same clock. -/
def DateTime.wallSeconds (t : DateTime) : Int :=
  (dateAbs t.year t.month t.day t.hour t.minute t.second : Int) - unixToAbsolute

/-- The clocks of `loc` show the reading `t` at the instant `time.Date` settles
on for it: the offset in force at that instant is the offset subtracted.  This
fails for a reading that a zone transition skips. -/
def Location.Shows (loc : Location) (t : DateTime) : Prop :=
  (loc.lookup (t.wallSeconds - loc.dateOffset t.wallSeconds)).offset =
    loc.dateOffset t.wallSeconds

instance (loc : Location) (t : DateTime) : Decidable (loc.Shows t) := by
  unfold Location.Shows
  infer_instance

/-- The errors the four producer steps return, in program order:
`CreateFormFile`, `io.Copy`, `formWriter.Close`, `bodyWriter.Close`. -/
def faultErrors (fl : Faults) : List (Option Error) :=
  [fl.createFormFile, fl.copy.map Prod.snd, fl.formClose, fl.bodyClose]

/-- The error of the earliest failing step of a list of step results. -/
def firstFailure : List (Option Error) → Option Error
  | [] => none
  | some e :: _ => some e
  | none :: rest => firstFailure rest

/-- The steps of one pass of the backup loop, in the order of the specification. -/
inductive Step where
  | dump
  | check
  | create
  | upload
  | delete
  deriving DecidableEq, Repr

/-- The step an effect starts, if it is the first effect of one:
running the dump tool, building the GET or the MKCOL request, opening the dump
file for upload, removing the dump file. -/
def Event.step : Event → Option Step
  | .run _ _ => some .dump
  | .newRequest method _ =>
    if method = "GET" then some .check
    else if method = "MKCOL" then some .create
    else none
  | .openFile _ => some .upload
  | .remove _ => some .delete
  | _ => none

/-- The steps started in a stretch of the trace, in order. -/
def steps (ev : Trace) : List Step :=
  ev.filterMap Event.step

/-- The HTTP requests sent in a stretch of the trace: method and URL, in order. -/
def requests (ev : Trace) : List (String × String) :=
  ev.filterMap (fun e =>
    match e with
    | .send req => some (req.method, req.url)
    | _ => none)

/-- The files removed in a stretch of the trace, in order. -/
def removals (ev : Trace) : List String :=
  ev.filterMap (fun e =>
    match e with
    | .remove path => some path
    | _ => none)

/-- Whether the producer goroutine panics: `CreateFormFile` has failed, so that
`partWriter` is nil, and `io.Copy` has at least one byte to write to it. -/
def goroutinePanics (fl : Faults) (file : Bytes) : Bool :=
  fl.createFormFile.isSome && !(copyMoved fl file).isEmpty

/-- The effects one pass of the backup loop adds to the trace. -/
def iterationEvents (w : World) (t : Trace) : Trace :=
  (backupIteration w t).trace.drop t.length

/-- The effects one call of `cleanOldBackups` adds to the trace. -/
def cleanEvents (w : World) (t : Trace) : Trace :=
  (cleanOldBackups w t).2.drop t.length

/-- The request a remote directory operation builds. -/
def dirRequest (w : World) (method dirName : String) : Request :=
  { method := method, url := dirURL w dirName,
    basicAuth := some (w.cfg.username, w.cfg.password),
    contentType := none, body := none }

/-- The outcome of the HTTP side of a remote directory operation started at
trace `t`: the error of the request construction, or what the HTTP call
returns. -/
def dirOutcome (w : World) (method dirName : String) (t : Trace) : Except Error DoResult :=
  match w.parseURL (dirURL w dirName) with
  | some err => .error err
  | none =>
    .ok (w.roundTrip
      (t ++ [Event.newRequest method (dirURL w dirName),
             Event.send (dirRequest w method dirName)])
      (dirRequest w method dirName))

/-- The status-code contract of a remote directory operation `op` that uses
`method` and succeeds on `code`. -/
def DirOpContract (op : World → String → Trace → (Bool × Option Error) × Trace)
    (method : String) (code : Nat) : Prop :=
  ∀ (w : World) (dirName : String) (t : Trace),
    ((op w dirName t).1 = (true, none) ↔
      ∃ resp, dirOutcome w method dirName t = .ok (.response resp) ∧ resp.statusCode = code) ∧
    ((op w dirName t).1 = (false, none) ↔
      ∃ resp, dirOutcome w method dirName t = .ok (.response resp) ∧ resp.statusCode ≠ code) ∧
    (∀ err, (op w dirName t).1 = (false, some err) ↔
      (dirOutcome w method dirName t = .error err ∨
       dirOutcome w method dirName t = .ok (.failure err) ∨
       ∃ resp, dirOutcome w method dirName t = .ok (.redirectFailure resp err))) ∧
    (∀ err, (op w dirName t).1 ≠ (true, some err)) ∧
    (requests ((op w dirName t).2.drop t.length) =
      match w.parseURL (dirURL w dirName) with
      | some _ => []
      | none => [(method, dirURL w dirName)])

/-- The producer faults of an upload of `path` started at trace `t`. -/
def uploadFaults (w : World) (path : String) (t : Trace) : Faults :=
  w.faults (t ++ [Event.openFile path])

/-- The multipart boundary of an upload of `path` started at trace `t`. -/
def uploadBoundary (w : World) (path : String) (t : Trace) : String :=
  w.boundary (t ++ [Event.openFile path])

/-- The PUT request `uploadFileMultipart` sends for a file with content `file`. -/
def uploadRequest (w : World) (url path : String) (file : Bytes) (t : Trace) : Request :=
  { method := "PUT", url := url,
    basicAuth := some (w.cfg.username, w.cfg.password),
    contentType := some (formDataContentType (uploadBoundary w path t)),
    body := some (producer (uploadBoundary w path t) path file (uploadFaults w path t) 4).pipe }

/-- The trace at the moment `http.DefaultClient.Do` is running in
`uploadFileMultipart`. -/
def uploadSent (w : World) (url path : String) (file : Bytes) (t : Trace) : Trace :=
  t ++ [Event.openFile path, Event.newRequest "PUT" url,
        Event.send (uploadRequest w url path file t)]

/-- What `http.DefaultClient.Do` returns in `uploadFileMultipart`. -/
def uploadDo (w : World) (url path : String) (file : Bytes) (t : Trace) : DoResult :=
  w.roundTrip (uploadSent w url path file t) (uploadRequest w url path file t)

/-- How many producer steps have taken effect when `writeErr` is read. -/
def uploadSeen (w : World) (url path : String) (file : Bytes) (t : Trace) : Nat :=
  w.observed (uploadSent w url path file t)

/-- The text "YYYY-MM-DD" of a date: four digits, a dash, two digits, a dash,
two digits. -/
def isoDate (year month day : Nat) : String :=
  String.mk
    [Char.ofNat (48 + year / 1000 % 10), Char.ofNat (48 + year / 100 % 10),
     Char.ofNat (48 + year / 10 % 10), Char.ofNat (48 + year % 10), '-',
     Char.ofNat (48 + month / 10 % 10), Char.ofNat (48 + month % 10), '-',
     Char.ofNat (48 + day / 10 % 10), Char.ofNat (48 + day % 10)]

/-- The name `cleanOldBackups` works on according to the specification: the
date three days before the clock reading, as "2006-01-02". -/
def retentionName (w : World) (t : Trace) : String :=
  (w.clock (t ++ [Event.now])).threeDaysEarlier.formatDateOnly

/-! ## Proof-side helpers for the date arithmetic -/

/-- The day number on which `time.Date` bases `abs`, before the reduction
modulo `2 ^ 64`. -/
def absDay (year : Int) (month : Nat) (day : Int) : Int :=
  (daysSinceEpoch year : Int) + (daysBefore (month - 1) : Nat) +
    (if isLeap year && decide (3 ≤ month) then 1 else 0) + (day - 1)

/-- The month and day `absDate` derives from the day of the year. -/
def monthDayOf (leap : Bool) (yday : Nat) : Nat × Nat :=
  if leap && yday == 31 + 29 - 1 then (2, 29)
  else
    let day := if leap && yday > 31 + 29 - 1 then yday - 1 else yday
    let month := day / 31
    let endDay := daysBefore (month + 1)
    if day ≥ endDay then (month + 2, day - endDay + 1)
    else (month + 1, day - daysBefore month + 1)

/-! ## Example worlds -/

/-- A time zone, after America/Santiago in 2026, four hours behind UTC until
2026-09-06 04:00:00 UTC and three hours behind from then on: the clocks go
from 23:59:59 on 2026-09-05 to 01:00:00 on 2026-09-06. -/
def springForwardZone : Location :=
  { lookup := fun sec =>
      if sec < 1788667200 then { offset := -14400, start := -2 ^ 63, stop := 1788667200 }
      else { offset := -10800, start := 1788667200, stop := 2 ^ 63 - 1 } }

/-- A world in which everything succeeds, with the HTTP answers, the producer
faults and the goroutine schedule left open.  The clock stands at 2024-01-10
13:04:05 in `springForwardZone` and the dump file holds five bytes. -/
def exampleWorld (answer : Request → DoResult) (fl : Faults) (seen : Nat) : World :=
  { cfg := { baseURL := "https://cloud.example.com/remote.php/dav/files/alice",
             username := "alice", password := "secret" },
    zone := springForwardZone,
    clock := fun _ => { year := 2024, month := 1, day := 10, hour := 13, minute := 4, second := 5 },
    runCmd := fun _ _ _ => { stdout := "", stderr := "", err := none },
    parseURL := fun _ => none,
    roundTrip := fun _ req => answer req,
    openFile := fun _ _ => .ok [1, 2, 3, 4, 5],
    removeFile := fun _ _ => none,
    boundary := fun _ => "b0",
    faults := fun _ => fl,
    observed := fun _ => seen }

/-- No producer step fails. -/
def noFaults : Faults :=
  { createFormFile := none, copy := none, formClose := none, bodyClose := none }

/-- The pipe is closed under the goroutine while `io.Copy` is writing. -/
def closedPipeFault : Faults :=
  { noFaults with copy := some (0, "io: read/write on closed pipe"),
                  formClose := some "io: read/write on closed pipe" }

/-- The pipe is closed under the goroutine before it has written anything:
`CreateFormFile` fails and returns a nil `partWriter`. -/
def createFault : Faults :=
  { noFaults with createFormFile := some "io: read/write on closed pipe" }

/-- A server that answers every request with the same status code. -/
def always (code : Nat) : Request → DoResult :=
  fun _ => .response { statusCode := code }

/-- A server on which the directory exists (GET gives 200) and every other
request is answered with `code`. -/
def existsThen (code : Nat) : Request → DoResult :=
  fun req => if req.method = "GET" then .response { statusCode := 200 }
    else .response { statusCode := code }

/-- A server on which the directory is missing (GET gives 404) and every other
request is answered with `code`. -/
def missingThen (code : Nat) : Request → DoResult :=
  fun req => if req.method = "GET" then .response { statusCode := 404 }
    else .response { statusCode := code }

/-- The server answers 401 before it has read the body; the goroutine has
completed its first step only when the answer arrives. -/
def earlyAnswerWorld : World := exampleWorld (always 401) closedPipeFault 1

/-- Nothing fails and the server answers 201. -/
def createdWorld : World := exampleWorld (always 201) noFaults 4

/-- The directory exists and the upload is answered 403. -/
def forbiddenWorld : World := exampleWorld (existsThen 403) noFaults 4

/-- The dump tool exits with an error. -/
def dumpFailsWorld : World :=
  { exampleWorld (always 201) noFaults 4 with
    runCmd := fun _ _ _ =>
      { stdout := "", stderr := "pg_dumpall: error: connection to server failed",
        err := some "exit status 1" } }

/-- The directory of three days ago exists and the server refuses to delete it. -/
def refusedDeleteWorld : World := exampleWorld (existsThen 403) noFaults 4

/-- The directory of today is missing and the server refuses to create it. -/
def refusedCreateWorld : World := exampleWorld (missingThen 405) noFaults 4

/-- The directory of three days ago exists and the server deletes it. -/
def deletedWorld : World := exampleWorld (existsThen 204) noFaults 4

/-- The connection breaks before the goroutine has written anything:
`CreateFormFile` fails, and `io.Copy` is handed the nil `partWriter` and the
five bytes of the file. -/
def nilWriterWorld : World :=
  exampleWorld
    (fun req => if req.method = "GET" then .response { statusCode := 200 }
      else .failure "Put: connection reset by peer")
    createFault 4

/-- The clock stands at 2026-09-09 00:30:00 in `springForwardZone`; three days
earlier, 00:30:00 on 2026-09-06 is skipped by the clocks. -/
def skippedTimeWorld : World :=
  { exampleWorld (existsThen 204) noFaults 4 with
    clock := fun _ =>
      { year := 2026, month := 9, day := 9, hour := 0, minute := 30, second := 0 } }

/-! ## Closed forms of the operations, used in the proofs -/

/-- The result of a remote directory operation in terms of `dirOutcome`. -/
def dirOpResult (w : World) (method : String) (code : Nat) (dirName : String) (t : Trace) :
    (Bool × Option Error) × Trace :=
  match dirOutcome w method dirName t with
  | .error err => ((false, some err), t ++ [Event.newRequest method (dirURL w dirName)])
  | .ok res =>
    ((match res with
      | .response resp => (resp.statusCode == code, none)
      | .failure err => (false, some err)
      | .redirectFailure _ err => (false, some err)),
     t ++ [Event.newRequest method (dirURL w dirName), Event.send (dirRequest w method dirName)])

/-- The result of `uploadFileMultipart` in terms of what the world answers. -/
def uploadResult (w : World) (url path : String) (t : Trace) :
    Outcome (Option Response × Option Error) × Trace :=
  match w.openFile (t ++ [Event.openFile path]) path with
  | .error err => (.returned (none, some err), t ++ [Event.openFile path])
  | .ok file =>
    match w.parseURL url with
    | some err =>
      (.returned (none, some err),
        t ++ [Event.openFile path, Event.newRequest "PUT" url, Event.closeFile path])
    | none =>
      if goroutinePanics (uploadFaults w path t) file then
        (.crashed, uploadSent w url path file t)
      else
        (.returned
          (match firstFailure ((faultErrors (uploadFaults w path t)).take
                (uploadSeen w url path file t)) with
            | some e => (none, some e)
            | none => ((uploadDo w url path file t).resp, (uploadDo w url path file t).err)),
         uploadSent w url path file t ++ [Event.closeFile path])

/-- The name `cleanOldBackups` computes at trace `t`. -/
def cleanName (w : World) (t : Trace) : String :=
  ((w.clock (t ++ [Event.now])).addDate w.zone 0 0 (-3)).formatDateOnly


/-! # Lemmas -/

/-! ## Date arithmetic -/

/-- On a day count in closed form, `absDate` recovers the year and hands the day of the year to `monthDayOf`. -/
theorem absDate_closed (a b c e yd s : Nat) (hb : b ≤ 3) (hc : c ≤ 24) (he : e ≤ 3)
    (hs : s < 86400)
    (hyd : yd < 365 + (if e = 3 ∧ (c ≠ 24 ∨ b = 3) then 1 else 0)) :
    absDate ((146097 * a + 36524 * b + 1461 * c + 365 * e + yd) * 86400 + s) =
      (((400 * a + 100 * b + 4 * c + e : Nat) : Int) + absoluteZeroYear,
        monthDayOf (isLeap (((400 * a + 100 * b + 4 * c + e : Nat) : Int) + absoluteZeroYear)) yd) := by
  have hyd' : yd ≤ 365 := by split at hyd <;> omega
  have h1 : ((146097 * a + 36524 * b + 1461 * c + 365 * e + yd) * 86400 + s) / 86400
      = 146097 * a + 36524 * b + 1461 * c + 365 * e + yd := by omega
  have hR1 : 36524 * b + 1461 * c + 365 * e + yd < 146097 := by
    split at hyd <;> omega
  have h2 : (146097 * a + 36524 * b + 1461 * c + 365 * e + yd) / 146097 = a := by omega
  have h3 : 146097 * a + 36524 * b + 1461 * c + 365 * e + yd - 146097 * a
      = 36524 * b + 1461 * c + 365 * e + yd := by omega
  have hR2 : 1461 * c + 365 * e + yd < 36524 ∨ (b = 3 ∧ 1461 * c + 365 * e + yd = 36524) := by
    split at hyd <;> omega
  have h4 : (36524 * b + 1461 * c + 365 * e + yd) / 36524
      - (36524 * b + 1461 * c + 365 * e + yd) / 36524 / 4 = b := by
    rcases hR2 with h | ⟨h, h'⟩
    · have : (36524 * b + 1461 * c + 365 * e + yd) / 36524 = b := by omega
      rw [this]; omega
    · have : (36524 * b + 1461 * c + 365 * e + yd) / 36524 = 4 := by omega
      rw [this]; omega
  have h5 : 36524 * b + 1461 * c + 365 * e + yd - 36524 * b = 1461 * c + 365 * e + yd := by omega
  have hR3 : 365 * e + yd < 1461 := by split at hyd <;> omega
  have h6 : (1461 * c + 365 * e + yd) / 1461 = c := by omega
  have h7 : 1461 * c + 365 * e + yd - 1461 * c = 365 * e + yd := by omega
  have h8 : (365 * e + yd) / 365 - (365 * e + yd) / 365 / 4 = e := by
    by_cases h : yd = 365
    · have he3 : e = 3 := by split at hyd <;> omega
      subst he3; subst h; decide
    · have : (365 * e + yd) / 365 = e := by omega
      rw [this]; omega
  have h9 : 365 * e + yd - 365 * e = yd := by omega
  unfold absDate monthDayOf secondsPerDay daysPer400Years daysPer100Years daysPer4Years
  simp only [Nat.reduceMul, Nat.reduceAdd, h1, h2, h3, h4, h5, h6, h7, h8, h9]
  split_ifs <;> rfl

/-- For a month in range `norm` changes nothing. -/
theorem norm_month (year : Int) (month : Nat) (h1 : 1 ≤ month) (h2 : month ≤ 12) :
    norm year ((month : Int) - 1) 12 = (year, (month : Int) - 1) := by
  unfold norm
  have : ¬ ((month : Int) - 1 < 0) := by omega
  have : ¬ ((month : Int) - 1 ≥ 12) := by omega
  simp [*]

/-- For a month in range `dateAbs` is the day number `absDay` times the seconds of a day, plus the seconds of the clock, in `uint64` arithmetic. -/
theorem dateAbs_eq (year : Int) (month : Nat) (x : Int) (h mi s : Nat)
    (h1 : 1 ≤ month) (h2 : month ≤ 12) :
    dateAbs year month x h mi s =
      (((absDay year month x) % 2 ^ 64 * 86400 + ((h * 3600 + mi * 60 + s : Nat) : Int)) % 2 ^ 64).toNat := by
  unfold dateAbs absDay secondsPerDay
  rw [norm_month year month h1 h2]
  simp only []
  have e1 : ((month : Int) - 1 + 1 - 1).toNat = month - 1 := by omega
  have e2 : (decide ((month : Int) - 1 + 1 ≥ 3)) = decide (3 ≤ month) := by
    apply decide_eq_decide.mpr; omega
  rw [e1, e2]
  cases hL : (isLeap year && decide (3 ≤ month)) <;> simp

set_option maxRecDepth 100000 in
set_option maxHeartbeats 2000000 in
/-- For every valid month and day, `monthDayOf` recovers them from the day of the year. -/
theorem monthDay_table : ∀ L : Bool, ∀ month : Fin 13, ∀ day : Fin 32,
    1 ≤ month.val → 1 ≤ day.val →
    day.val ≤ (if month.val = 2 then (if L then 29 else 28)
      else if month.val = 4 ∨ month.val = 6 ∨ month.val = 9 ∨ month.val = 11 then 30 else 31) →
    monthDayOf L (daysBefore (month.val - 1) + (if L && decide (3 ≤ month.val) then 1 else 0)
          + day.val - 1) = (month.val, day.val) := by
  decide

/-- Go `isLeap` is the leap year rule of the Gregorian calendar. -/
theorem isLeap_iff (year : Int) :
    isLeap year = true ↔ (year % 4 = 0 ∧ (year % 100 ≠ 0 ∨ year % 400 = 0)) := by
  unfold isLeap
  simp

/-- Closed form of `daysSinceEpoch` in the years since the absolute epoch. -/
theorem dse_closed (year : Int) (h0 : -292277022399 ≤ year) (h1 : year ≤ 100000000) :
    ∃ Y : Nat, (Y : Int) = year + 292277022399 ∧
      daysSinceEpoch year = 146097 * (Y / 400) + 36524 * (Y % 400 / 100) + 1461 * (Y % 100 / 4) + 365 * (Y % 4) := by
  refine ⟨((year - absoluteZeroYear) % 2 ^ 64).toNat, by unfold absoluteZeroYear; omega, ?_⟩
  have hb : ((year - absoluteZeroYear) % 2 ^ 64).toNat < 300000000000 := by
    unfold absoluteZeroYear; omega
  unfold daysSinceEpoch daysPer400Years daysPer100Years daysPer4Years
  generalize ((year - absoluteZeroYear) % 2 ^ 64).toNat = Y at hb ⊢
  simp only []
  have e1 : Y - 400 * (Y / 400) = Y % 400 := by omega
  rw [e1]
  have e2 : Y % 400 - 100 * (Y % 400 / 100) = Y % 100 := by omega
  rw [e2]
  have e3 : Y % 100 - 4 * (Y % 100 / 4) = Y % 4 := by omega
  rw [e3]
  omega

/-- The length of a month in terms of `isLeap`. -/
theorem daysIn_eq (year : Int) (month : Nat) :
    daysIn year month = (if month = 2 then (if isLeap year then 29 else 28)
      else if month = 4 ∨ month = 6 ∨ month = 9 ∨ month = 11 then 30 else 31) := by
  unfold daysIn
  by_cases hL : isLeap year = true
  · have h := (isLeap_iff year).mp hL
    simp only [if_pos h, hL, if_true]
  · have h : ¬ (year % 4 = 0 ∧ (year % 100 ≠ 0 ∨ year % 400 = 0)) :=
      fun h => hL ((isLeap_iff year).mpr h)
    simp only [if_neg h, hL, Bool.false_eq_true, if_false]

set_option maxRecDepth 100000 in
set_option maxHeartbeats 2000000 in
/-- The day of the year of a valid date lies within the year. -/
theorem yday_table : ∀ L : Bool, ∀ month : Fin 13, ∀ day : Fin 32,
    1 ≤ month.val → 1 ≤ day.val →
    day.val ≤ (if month.val = 2 then (if L then 29 else 28)
      else if month.val = 4 ∨ month.val = 6 ∨ month.val = 9 ∨ month.val = 11 then 30 else 31) →
    daysBefore (month.val - 1) + (if L && decide (3 ≤ month.val) then 1 else 0) + day.val - 1
      < 365 + (if L then 1 else 0) := by
  decide

/-- No month has more than 31 days. -/
theorem daysIn_le (year : Int) (month : Nat) : daysIn year month ≤ 31 := by
  unfold daysIn; split_ifs <;> omega

/-- Reading back what `time.Date` built: for a valid date and clock, `absDate` returns the same date and the seconds of the day are those of the clock. -/
theorem absDate_dateAbs (year : Int) (month day h mi s : Nat)
    (hy0 : -292277022399 ≤ year) (hy1 : year ≤ 100000000)
    (h1 : 1 ≤ month) (h2 : month ≤ 12) (h3 : 1 ≤ day) (h4 : day ≤ daysIn year month)
    (hh : h < 24) (hmi : mi < 60) (hs : s < 60) :
    absDate (dateAbs year month day h mi s) = (year, month, day) ∧
      dateAbs year month day h mi s % 86400 = h * 3600 + mi * 60 + s ∧
      dateAbs year month day h mi s < 9226600000000000000 := by
  obtain ⟨Y, hY, hdse⟩ := dse_closed year hy0 hy1
  have hLeap : isLeap year = decide (Y % 4 = 3 ∧ (Y % 100 / 4 ≠ 24 ∨ Y % 400 / 100 = 3)) := by
    rw [Bool.eq_iff_iff, isLeap_iff]
    simp only [decide_eq_true_eq]
    omega
  have hd31 : day ≤ 31 := le_trans h4 (daysIn_le year month)
  have h4' := h4
  rw [daysIn_eq] at h4'
  have htab := monthDay_table (isLeap year) ⟨month, by omega⟩ ⟨day, by omega⟩ h1 h3 h4'
  have hyt := yday_table (isLeap year) ⟨month, by omega⟩ ⟨day, by omega⟩ h1 h3 h4'
  simp only [] at htab hyt
  generalize hyd : daysBefore (month - 1) + (if (isLeap year && decide (3 ≤ month)) = true then 1 else 0)
    + day - 1 = yd at htab hyt
  have habs : absDay year month day =
      ((146097 * (Y / 400) + 36524 * (Y % 400 / 100) + 1461 * (Y % 100 / 4) + 365 * (Y % 4) + yd : Nat) : Int) := by
    unfold absDay
    rw [hdse, ← hyd]
    split_ifs <;> push_cast <;> omega
  have hsec : h * 3600 + mi * 60 + s < 86400 := by omega
  have hval : dateAbs year month day h mi s =
      (146097 * (Y / 400) + 36524 * (Y % 400 / 100) + 1461 * (Y % 100 / 4) + 365 * (Y % 4) + yd) * 86400
        + (h * 3600 + mi * 60 + s) := by
    rw [dateAbs_eq year month day h mi s h1 h2, habs]
    have hyd365 : yd ≤ 365 := by split_ifs at hyt <;> omega
    omega
  rw [hval]
  refine ⟨?_, by omega, ?_⟩
  · rw [absDate_closed _ _ _ _ yd _ (by omega) (by omega) (by omega) hsec
      (by rw [hLeap] at hyt; simpa using hyt)]
    have hyear : ((400 * (Y / 400) + 100 * (Y % 400 / 100) + 4 * (Y % 100 / 4) + Y % 4 : Nat) : Int)
        + absoluteZeroYear = year := by
      unfold absoluteZeroYear; omega
    rw [hyear, htab]
  · have hyd365 : yd ≤ 365 := by split_ifs at hyt <;> omega
    have hY2 : Y ≤ 292377022399 := by omega
    omega

/-- Go `isLeap` in terms of the years since the absolute epoch. -/
theorem isLeap_offset (Y : Nat) (year : Int) (hY : (Y : Int) = year + 292277022399) :
    isLeap year = decide (Y % 4 = 3 ∧ (Y % 100 ≠ 99 ∨ Y % 400 = 399)) := by
  rw [Bool.eq_iff_iff, isLeap_iff]
  simp only [decide_eq_true_eq]
  omega

/-- A year adds 365 or 366 days to `daysSinceEpoch`. -/
theorem dse_succ (year : Int) (h0 : -292277022399 < year) (h1 : year ≤ 100000000) :
    (daysSinceEpoch year : Int) =
      daysSinceEpoch (year - 1) + 365 + (if isLeap (year - 1) then 1 else 0) := by
  obtain ⟨Y, hY, hd⟩ := dse_closed year (by omega) h1
  obtain ⟨Y', hY', hd'⟩ := dse_closed (year - 1) (by omega) (by omega)
  have hYY : Y = Y' + 1 := by omega
  subst hYY
  rw [hd, hd', isLeap_offset Y' (year - 1) hY']
  clear hd hd' hY hY'
  by_cases h4 : Y' % 4 = 3 <;> by_cases h100 : Y' % 100 = 99 <;>
    by_cases h400 : Y' % 400 = 399 <;>
    simp only [h4, h100, h400, ne_eq, not_true_eq_false, not_false_eq_true, or_true, or_false,
      true_and, false_and, and_true, and_false, decide_True, decide_False, if_true,
      Bool.false_eq_true, if_false] <;>
    omega

/-- The day before a valid date is a valid date, its day number is one less, its clock is the same and its year is the same or the one before. -/
theorem absDay_dayBefore (t : DateTime) (hv : t.Valid)
    (h0 : -292277022399 < t.year) (h1 : t.year ≤ 100000000) :
    t.dayBefore.Valid ∧
      absDay t.dayBefore.year t.dayBefore.month t.dayBefore.day =
        absDay t.year t.month t.day - 1 ∧
      t.dayBefore.hour = t.hour ∧ t.dayBefore.minute = t.minute ∧ t.dayBefore.second = t.second ∧
      t.year - 1 ≤ t.dayBefore.year ∧ t.dayBefore.year ≤ t.year := by
  obtain ⟨y, m, d, hh, mi, s⟩ := t
  obtain ⟨hm1, hm2, hd1, hd2, hhh, hmi, hs⟩ := hv
  simp only at hm1 hm2 hd1 hd2 hhh hmi hs h0 h1
  unfold DateTime.dayBefore
  simp only
  by_cases hd : 1 < d
  · simp only [hd, if_true, DateTime.Valid]
    refine ⟨⟨hm1, hm2, by omega, by omega, hhh, hmi, hs⟩, ?_, trivial, trivial, trivial, by omega, le_refl _⟩
    unfold absDay; omega
  · have hd' : d = 1 := by omega
    subst hd'
    by_cases hm : 1 < m
    · simp only [hd, if_false, hm, if_true, DateTime.Valid]
      have hpos : 1 ≤ daysIn y (m - 1) := by unfold daysIn; split_ifs <;> omega
      refine ⟨⟨by omega, by omega, hpos, le_refl _, hhh, hmi, hs⟩, ?_, trivial, trivial, trivial,
        by omega, le_refl _⟩
      have hmm : m = 2 ∨ m = 3 ∨ m = 4 ∨ m = 5 ∨ m = 6 ∨ m = 7 ∨ m = 8 ∨ m = 9 ∨ m = 10 ∨
          m = 11 ∨ m = 12 := by omega
      unfold absDay
      rw [daysIn_eq]
      rcases hmm with h | h | h | h | h | h | h | h | h | h | h <;> subst h <;>
        cases isLeap y <;> simp [daysBefore] <;> omega
    · have hm' : m = 1 := by omega
      subst hm'
      simp only [hd, if_false, hm, DateTime.Valid]
      have h31 : daysIn (y - 1) 12 = 31 := by unfold daysIn; simp
      refine ⟨⟨by omega, by omega, by omega, by omega, hhh, hmi, hs⟩, ?_, trivial, trivial, trivial,
        by omega, by omega⟩
      unfold absDay
      rw [dse_succ y h0 h1]
      cases isLeap (y - 1) <;> cases isLeap y <;> simp [daysBefore] <;> omega

/-- Three days before a valid date is a valid date, at most three years back. -/
theorem threeDaysEarlier_valid (t : DateTime) (hv : t.Valid)
    (h0 : -292277022396 ≤ t.year) (h1 : t.year ≤ 100000000) :
    t.threeDaysEarlier.Valid ∧ t.year - 3 ≤ t.threeDaysEarlier.year ∧
      t.threeDaysEarlier.year ≤ t.year := by
  obtain ⟨v1, _, _, _, _, y1lo, y1hi⟩ := absDay_dayBefore t hv (by omega) h1
  obtain ⟨v2, _, _, _, _, y2lo, y2hi⟩ := absDay_dayBefore t.dayBefore v1 (by omega) (by omega)
  obtain ⟨v3, _, _, _, _, y3lo, y3hi⟩ :=
    absDay_dayBefore t.dayBefore.dayBefore v2 (by omega) (by omega)
  unfold DateTime.threeDaysEarlier
  exact ⟨v3, by omega, by omega⟩

/-- The day before lies in the same year, or is the 31st of the year before. -/
theorem dayBefore_year (t : DateTime) :
    t.dayBefore.year = t.year ∨ (t.dayBefore.year = t.year - 1 ∧ t.dayBefore.day = 31) := by
  unfold DateTime.dayBefore
  split_ifs
  · exact Or.inl rfl
  · exact Or.inl rfl
  · exact Or.inr ⟨rfl, rfl⟩

/-- After the first of a month the day before lies in the same year. -/
theorem dayBefore_same_month (t : DateTime) (h : 1 < t.day) :
    t.dayBefore.year = t.year ∧ t.dayBefore.day = t.day - 1 := by
  unfold DateTime.dayBefore
  rw [if_pos h]
  exact ⟨rfl, rfl⟩

/-- Three days earlier lies in the same year or the one before. -/
theorem threeDaysEarlier_year (t : DateTime) : t.year - 1 ≤ t.threeDaysEarlier.year := by
  unfold DateTime.threeDaysEarlier
  rcases dayBefore_year t with h1 | ⟨h1, d1⟩
  · rcases dayBefore_year t.dayBefore with h2 | ⟨h2, d2⟩
    · rcases dayBefore_year t.dayBefore.dayBefore with h3 | ⟨h3, _⟩ <;> omega
    · obtain ⟨h3, _⟩ := dayBefore_same_month t.dayBefore.dayBefore (by omega)
      omega
  · obtain ⟨h2, d2⟩ := dayBefore_same_month t.dayBefore (by omega)
    obtain ⟨h3, _⟩ := dayBefore_same_month t.dayBefore.dayBefore (by omega)
    omega

/-- Go `AddDate(0, 0, -3)` gives the calendar date three days earlier, at the
same time of day, whenever the clocks of the location show that reading. -/
theorem addDate_minus_three (loc : Location) (t : DateTime) (hv : t.Valid)
    (h0 : -292277022396 ≤ t.year) (h1 : t.year ≤ 100000000)
    (hz : loc.Shows t.threeDaysEarlier) :
    t.addDate loc 0 0 (-3) = t.threeDaysEarlier := by
  obtain ⟨v1, e1, c1, j1, k1, y1lo, y1hi⟩ := absDay_dayBefore t hv (by omega) h1
  obtain ⟨v2, e2, c2, j2, k2, y2lo, y2hi⟩ :=
    absDay_dayBefore t.dayBefore v1 (by omega) (by omega)
  obtain ⟨v3, e3, c3, j3, k3, y3lo, y3hi⟩ :=
    absDay_dayBefore t.dayBefore.dayBefore v2 (by omega) (by omega)
  have h3 : t.threeDaysEarlier = t.dayBefore.dayBefore.dayBefore := rfl
  rw [h3] at hz ⊢
  have r1 : t.dayBefore.dayBefore.dayBefore.hour = t.hour := by rw [c3, c2, c1]
  have r2 : t.dayBefore.dayBefore.dayBefore.minute = t.minute := by rw [j3, j2, j1]
  have r3 : t.dayBefore.dayBefore.dayBefore.second = t.second := by rw [k3, k2, k1]
  have ylo : t.year - 3 ≤ t.dayBefore.dayBefore.dayBefore.year := by omega
  have yhi : t.dayBefore.dayBefore.dayBefore.year ≤ t.year := by omega
  have hday : absDay t.year t.month ((t.day : Int) + -3) =
      absDay t.dayBefore.dayBefore.dayBefore.year t.dayBefore.dayBefore.dayBefore.month
        t.dayBefore.dayBefore.dayBefore.day := by
    rw [e3, e2, e1]
    unfold absDay
    omega
  generalize t.dayBefore.dayBefore.dayBefore = t3 at v3 r1 r2 r3 ylo yhi hday hz
  obtain ⟨w1, w2, w3, w4, w5, w6, w7⟩ := v3
  have key : dateAbs (t.year + 0) ((t.month : Int) + 0) ((t.day : Int) + -3)
      t.hour t.minute t.second = dateAbs t3.year t3.month t3.day t.hour t.minute t.second := by
    simp only [add_zero]
    rw [dateAbs_eq _ _ _ _ _ _ hv.1 hv.2.1, dateAbs_eq _ _ _ _ _ _ w1 w2, hday]
  have hh := hv.2.2.2.2.1
  have hmi := hv.2.2.2.2.2.1
  have hs := hv.2.2.2.2.2.2
  obtain ⟨hA, hB, hC⟩ := absDate_dateAbs t3.year t3.month t3.day t.hour t.minute t.second
    (by omega) (by omega) w1 w2 w3 w4 hh hmi hs
  unfold Location.Shows DateTime.wallSeconds at hz
  rw [r1, r2, r3] at hz
  unfold DateTime.addDate
  rw [key]
  generalize dateAbs t3.year t3.month t3.day t.hour t.minute t.second = A at hA hB hC hz
  have hW : wrapInt64 ((A : Int) - unixToAbsolute) = (A : Int) - unixToAbsolute := by
    unfold wrapInt64 unixToAbsolute
    omega
  simp only [hW, hz]
  have hback : (((A : Int) - unixToAbsolute - loc.dateOffset ((A : Int) - unixToAbsolute) +
      loc.dateOffset ((A : Int) - unixToAbsolute) + unixToAbsolute) % 2 ^ 64).toNat = A := by
    generalize loc.dateOffset ((A : Int) - unixToAbsolute) = off
    unfold unixToAbsolute
    omega
  rw [hback]
  simp only [hA, secondsPerDay, hB]
  have q1 : (t.hour * 3600 + t.minute * 60 + t.second) / 3600 = t.hour := by omega
  have q2 : (t.hour * 3600 + t.minute * 60 + t.second) % 3600 / 60 = t.minute := by omega
  have q3 : (t.hour * 3600 + t.minute * 60 + t.second) % 60 = t.second := by omega
  rw [q1, q2, q3, ← r1, ← r2, ← r3]

/-- In a location with one offset throughout, the clocks show every reading. -/
theorem shows_of_fixed_offset (loc : Location) (t : DateTime)
    (h : ∀ a b, (loc.lookup a).offset = (loc.lookup b).offset) : loc.Shows t := by
  unfold Location.Shows Location.dateOffset
  simp only []
  split_ifs with h1 h2
  · exact h _ _
  · exact h _ _
  · rw [h _ t.wallSeconds]
    simpa using h1

/-- The digit loop on a number below ten. -/
theorem decimalDigits_lt (fuel u : Nat) (acc : List Char) (h : u < 10) :
    decimalDigits (fuel + 1) u acc = Char.ofNat (48 + u) :: acc := by
  have h' : ¬ (u ≥ 10) := by omega
  simp only [decimalDigits, h', if_false]

/-- One turn of the digit loop. -/
theorem decimalDigits_ge (fuel u : Nat) (acc : List Char) (h : 10 ≤ u) :
    decimalDigits (fuel + 1) u acc =
      decimalDigits fuel (u / 10) (Char.ofNat (48 + u % 10) :: acc) := by
  have e : u - u / 10 * 10 = u % 10 := by omega
  have h' : u ≥ 10 := h
  simp only [decimalDigits, h', if_true, e]

/-- A number below 10000, padded to four digits. -/
theorem decimalDigits_four (n : Nat) (h : n < 10000) :
    List.replicate (4 - (decimalDigits 20 n []).length) '0' ++ decimalDigits 20 n [] =
      [Char.ofNat (48 + n / 1000 % 10), Char.ofNat (48 + n / 100 % 10),
        Char.ofNat (48 + n / 10 % 10), Char.ofNat (48 + n % 10)] := by
  by_cases h1 : n < 10
  · rw [decimalDigits_lt 19 n [] h1]
    have a1 : n / 1000 % 10 = 0 := by omega
    have a2 : n / 100 % 10 = 0 := by omega
    have a3 : n / 10 % 10 = 0 := by omega
    have a4 : n % 10 = n := by omega
    rw [a1, a2, a3, a4]
    rfl
  · rw [decimalDigits_ge 19 n [] (by omega)]
    by_cases h2 : n / 10 < 10
    · rw [decimalDigits_lt 18 _ _ h2]
      have a1 : n / 1000 % 10 = 0 := by omega
      have a2 : n / 100 % 10 = 0 := by omega
      have a3 : n / 10 % 10 = n / 10 := by omega
      rw [a1, a2, a3]
      rfl
    · rw [decimalDigits_ge 18 _ _ (by omega)]
      by_cases h3 : n / 10 / 10 < 10
      · rw [decimalDigits_lt 17 _ _ h3]
        have a1 : n / 1000 % 10 = 0 := by omega
        have a2 : n / 100 % 10 = n / 10 / 10 := by omega
        rw [a1, a2]
        rfl
      · rw [decimalDigits_ge 17 _ _ (by omega), decimalDigits_lt 16 _ _ (by omega)]
        have a1 : n / 1000 % 10 = n / 10 / 10 / 10 := by omega
        have a2 : n / 100 % 10 = n / 10 / 10 % 10 := by omega
        rw [a1, a2]
        rfl

/-- A number below 100, padded to two digits. -/
theorem decimalDigits_two (n : Nat) (h : n < 100) :
    List.replicate (2 - (decimalDigits 20 n []).length) '0' ++ decimalDigits 20 n [] =
      [Char.ofNat (48 + n / 10 % 10), Char.ofNat (48 + n % 10)] := by
  by_cases h1 : n < 10
  · rw [decimalDigits_lt 19 n [] h1]
    have a3 : n / 10 % 10 = 0 := by omega
    have a4 : n % 10 = n := by omega
    rw [a3, a4]
    rfl
  · rw [decimalDigits_ge 19 n [] (by omega), decimalDigits_lt 18 _ _ (by omega)]
    have a3 : n / 10 % 10 = n / 10 := by omega
    rw [a3]
    rfl

/-- For a year from 0 to 9999, `Format(time.DateOnly)` is the text YYYY-MM-DD. -/
theorem formatDateOnly_iso (t : DateTime) (hy0 : 0 ≤ t.year) (hy1 : t.year ≤ 9999)
    (hm : t.month < 100) (hd : t.day < 100) :
    t.formatDateOnly = isoDate t.year.toNat t.month t.day := by
  obtain ⟨y, m, d, hh, mi, s⟩ := t
  simp only at hy0 hy1 hm hd
  obtain ⟨n, rfl⟩ : ∃ n : Nat, y = (n : Int) := ⟨y.toNat, by omega⟩
  unfold DateTime.formatDateOnly isoDate appendInt
  have hneg : ¬ ((n : Int) < 0) := by omega
  have hneg2 : ¬ ((m : Int) < 0) := by omega
  have hneg3 : ¬ ((d : Int) < 0) := by omega
  simp only [hneg, hneg2, hneg3, if_false, Int.natAbs_ofNat, Int.toNat_ofNat,
    decimalDigits_four n (by omega), decimalDigits_two m hm, decimalDigits_two d hd]
  rfl


/-! ## Remote directory operations -/

/-- Closed form of `createDirName`. -/
theorem createDirName_eq (w : World) (dirName : String) (t : Trace) :
    createDirName w dirName t = dirOpResult w "MKCOL" 201 dirName t := by
  unfold createDirName dirOpResult dirOutcome newAuthedReq clientDo dirRequest
  cases h : w.parseURL (dirURL w dirName) with
  | some e => rfl
  | none =>
    simp only [List.append_assoc, List.singleton_append]
    cases hr : w.roundTrip _ _ <;> rfl

/-- Closed form of `dirNameExists`. -/
theorem dirNameExists_eq (w : World) (dirName : String) (t : Trace) :
    dirNameExists w dirName t = dirOpResult w "GET" 200 dirName t := by
  unfold dirNameExists dirOpResult dirOutcome newAuthedReq clientDo dirRequest
  cases h : w.parseURL (dirURL w dirName) with
  | some e => rfl
  | none =>
    simp only [List.append_assoc, List.singleton_append]
    cases hr : w.roundTrip _ _ <;> rfl

/-- Closed form of `deleteDirName`. -/
theorem deleteDirName_eq (w : World) (dirName : String) (t : Trace) :
    deleteDirName w dirName t = dirOpResult w "DELETE" 204 dirName t := by
  unfold deleteDirName dirOpResult dirOutcome newAuthedReq clientDo dirRequest
  cases h : w.parseURL (dirURL w dirName) with
  | some e => rfl
  | none =>
    simp only [List.append_assoc, List.singleton_append]
    cases hr : w.roundTrip _ _ <;> rfl

/-- An operation with the closed form `dirOpResult` meets the status-code contract. -/
theorem contract_of_eq (op : World → String → Trace → (Bool × Option Error) × Trace)
    (method : String) (code : Nat)
    (h : ∀ w dirName t, op w dirName t = dirOpResult w method code dirName t) :
    DirOpContract op method code := by
  intro w dirName t
  rw [h]
  unfold dirOpResult
  have hp : dirOutcome w method dirName t =
      match w.parseURL (dirURL w dirName) with
      | some err => .error err
      | none => .ok (w.roundTrip
        (t ++ [Event.newRequest method (dirURL w dirName),
               Event.send (dirRequest w method dirName)])
        (dirRequest w method dirName)) := rfl
  cases hpu : w.parseURL (dirURL w dirName) with
  | some e =>
    rw [hpu] at hp
    simp [hp, requests]
  | none =>
    rw [hpu] at hp
    simp only [hp]
    cases hr : w.roundTrip _ _ with
    | response resp =>
      simp [requests, dirRequest]
    | failure e => simp [requests, dirRequest]
    | redirectFailure resp e => simp [requests, dirRequest]


/-! ## The producer goroutine and the upload -/

/-- One more statement of the goroutine. -/
theorem producer_succ (boundary path : String) (file : Bytes) (fl : Faults) (k : Nat) :
    producer boundary path file fl (k + 1) =
      producerStep boundary path file fl k (producer boundary path file fl k) := by
  unfold producer
  rw [List.range_succ, List.foldl_append]
  rfl

/-- The goroutine has four statements. -/
theorem producer_ge_four (boundary path : String) (file : Bytes) (fl : Faults) (k : Nat) :
    producer boundary path file fl (k + 4) = producer boundary path file fl 4 := by
  induction k with
  | zero => rfl
  | succ n ih =>
    rw [show n + 1 + 4 = (n + 4) + 1 by omega, producer_succ, ih]
    unfold producerStep
    split <;> rfl

/-- The goroutine after its four statements, by cases on what `CreateFormFile` returned and on whether `io.Copy` has a byte to move. -/
theorem producer_four (boundary path : String) (file : Bytes) (fl : Faults) :
    producer boundary path file fl 4 =
      match fl.createFormFile with
      | none =>
        { cell := setErr (setErr (setErr { writeErr := none, done := false }
            (fl.copy.map Prod.snd)) fl.formClose) fl.bodyClose,
          pipe :=
            { data := partHeader boundary "file" path ++ copyMoved fl file ++
                (match fl.formClose with
                 | none => closingBoundary boundary
                 | some _ => []),
              wclosed := some none },
          partWriter := true,
          panicked := false }
      | some e =>
        if copyMoved fl file = [] then
          { cell := { writeErr := some e, done := true },
            pipe :=
              { data := (match fl.formClose with
                  | none => closingBoundary boundary
                  | some _ => []),
                wclosed := some none },
            partWriter := false,
            panicked := false }
        else
          { cell := { writeErr := some e, done := true },
            pipe := { data := [], wclosed := none },
            partWriter := false,
            panicked := true } := by
  obtain ⟨c1, c2, c3, c4⟩ := fl
  cases c1 with
  | none =>
    rcases c2 with _ | ⟨n, e⟩ <;> cases c3 <;> cases c4 <;>
      simp [producer, List.range, List.range.loop, producerStep, Producer.init, Pipe.write,
        Pipe.close, Pipe.closeWithError, setErr, copyMoved]
  | some e1 =>
    by_cases hc : copyMoved ⟨some e1, c2, c3, c4⟩ file = []
    · rcases c2 with _ | ⟨n, e⟩ <;> cases c3 <;> cases c4 <;>
        simp [producer, List.range, List.range.loop, producerStep, Producer.init, Pipe.write,
          Pipe.close, Pipe.closeWithError, setErr, hc]
    · rcases c2 with _ | ⟨n, e⟩ <;> cases c3 <;> cases c4 <;>
        simp [producer, List.range, List.range.loop, producerStep, Producer.init, Pipe.write,
          Pipe.close, Pipe.closeWithError, setErr, hc]

/-- Taking all the step results changes nothing. -/
theorem firstFailure_take_ge (l : List (Option Error)) (k : Nat) (h : l.length ≤ k) :
    firstFailure (l.take k) = firstFailure l := by
  rw [List.take_of_length_le h]

/-- After `k` statements `writeErr` holds the first failure among the first `k` step results, and `errOnce` has fired exactly when there is one. -/
theorem producer_cell (boundary path : String) (file : Bytes) (fl : Faults) (k : Nat) :
    (producer boundary path file fl k).cell.writeErr =
        firstFailure ((faultErrors fl).take k) ∧
      (producer boundary path file fl k).cell.done =
        (firstFailure ((faultErrors fl).take k)).isSome := by
  by_cases hk : k < 4
  · obtain ⟨c1, c2, c3, c4⟩ := fl
    interval_cases k
    · exact ⟨rfl, rfl⟩
    · cases c1 <;> exact ⟨rfl, rfl⟩
    · cases c1 with
      | none => rcases c2 with _ | ⟨n, e⟩ <;> exact ⟨rfl, rfl⟩
      | some e1 =>
        by_cases hc : copyMoved ⟨some e1, c2, c3, c4⟩ file = [] <;>
          rcases c2 with _ | ⟨n, e⟩ <;>
          simp [producer, List.range, List.range.loop, producerStep, Producer.init, setErr, hc,
            faultErrors, firstFailure]
    · cases c1 with
      | none => rcases c2 with _ | ⟨n, e⟩ <;> cases c3 <;> exact ⟨rfl, rfl⟩
      | some e1 =>
        by_cases hc : copyMoved ⟨some e1, c2, c3, c4⟩ file = [] <;>
          rcases c2 with _ | ⟨n, e⟩ <;> cases c3 <;>
          simp [producer, List.range, List.range.loop, producerStep, Producer.init, setErr, hc,
            faultErrors, firstFailure]
  · obtain ⟨j, rfl⟩ : ∃ j, k = j + 4 := ⟨k - 4, by omega⟩
    rw [producer_ge_four, firstFailure_take_ge _ _ (by simp [faultErrors]), producer_four]
    obtain ⟨c1, c2, c3, c4⟩ := fl
    cases c1 with
    | none =>
      rcases c2 with _ | ⟨n, e⟩ <;> cases c3 <;> cases c4 <;>
        simp [setErr, faultErrors, firstFailure]
    | some e1 =>
      simp only [faultErrors, firstFailure]
      split <;> exact ⟨rfl, rfl⟩

/-- The goroutine has panicked after its four statements exactly when `CreateFormFile` failed and `io.Copy` had a byte to move. -/
theorem producer_panicked (boundary path : String) (file : Bytes) (fl : Faults) :
    (producer boundary path file fl 4).panicked = goroutinePanics fl file := by
  rw [producer_four]
  unfold goroutinePanics
  cases h : fl.createFormFile with
  | none => simp
  | some e =>
    by_cases hc : copyMoved fl file = []
    · simp [hc]
    · simp [hc, List.isEmpty_iff]

/-- Without a fault the goroutine writes the part header, the file and the closing boundary, and closes the pipe. -/
theorem producer_data_noFaults (boundary path : String) (file : Bytes) (fl : Faults)
    (h : firstFailure (faultErrors fl) = none) :
    (producer boundary path file fl 4).pipe =
      { data := partHeader boundary "file" path ++ file ++ closingBoundary boundary,
        wclosed := some none } := by
  rw [producer_four]
  obtain ⟨c1, c2, c3, c4⟩ := fl
  cases c1 <;> rcases c2 with _ | ⟨n, e⟩ <;> cases c3 <;> cases c4 <;>
    simp [faultErrors, firstFailure] at h
  simp [copyMoved]

/-- The content of `writeErr` after `k` statements. -/
theorem producer_writeErr (boundary path : String) (file : Bytes) (fl : Faults) (k : Nat) :
    (producer boundary path file fl k).cell.writeErr =
      firstFailure ((faultErrors fl).take k) :=
  (producer_cell boundary path file fl k).1

/-- Closed form of `uploadFileMultipart`. -/
theorem uploadFileMultipart_eq (w : World) (url path : String) (t : Trace) :
    uploadFileMultipart w url path t = uploadResult w url path t := by
  unfold uploadFileMultipart uploadResult
  simp only [newAuthedReq, clientDo, producer_writeErr, producer_panicked, uploadSeen, uploadDo,
    uploadSent, uploadRequest, uploadFaults, uploadBoundary,
    List.append_assoc, List.singleton_append, List.cons_append, List.nil_append]
  cases ho : w.openFile (t ++ [Event.openFile path]) path with
  | error e => rfl
  | ok file =>
    simp only []
    cases hp : w.parseURL url with
    | some e => simp
    | none =>
      simp only [List.append_assoc, List.singleton_append, List.cons_append, List.nil_append]
      split
      · rfl
      · split <;> simp_all

/-- When no producer step fails the goroutine does not panic. -/
theorem goroutinePanics_of_no_failure (fl : Faults) (file : Bytes)
    (h : firstFailure (faultErrors fl) = none) : goroutinePanics fl file = false := by
  obtain ⟨c1, c2, c3, c4⟩ := fl
  cases c1 with
  | none => rfl
  | some e => simp [faultErrors, firstFailure] at h

/-- No prefix of the step results holds a failure when the whole list holds none. -/
theorem firstFailure_take_of_no_failure (fl : Faults) (k : Nat)
    (h : firstFailure (faultErrors fl) = none) :
    firstFailure ((faultErrors fl).take k) = none := by
  obtain ⟨c1, c2, c3, c4⟩ := fl
  cases c1 <;> rcases c2 with _ | ⟨n, e⟩ <;> cases c3 <;> cases c4 <;>
    simp [faultErrors, firstFailure] at h
  by_cases hk : k < 4
  · interval_cases k <;> rfl
  · rw [firstFailure_take_ge _ _ (by simp [faultErrors]; omega)]; rfl

/-- The upload with a nil `partWriter`: the connection breaks, `CreateFormFile` fails, the goroutine records the error and hands the nil `partWriter` and the five bytes of the file to `io.Copy`, which panics: the pipe is left open and the call does not return. -/
theorem upload_panics_on_nil_part_writer :
    (producer "b0" "13:04:05" [1, 2, 3, 4, 5] createFault 4).cell.writeErr =
      some "io: read/write on closed pipe" ∧
    (producer "b0" "13:04:05" [1, 2, 3, 4, 5] createFault 4).panicked = true ∧
    (producer "b0" "13:04:05" [1, 2, 3, 4, 5] createFault 4).pipe.readEnd = ReadEnd.blocked ∧
    (uploadFileMultipart nilWriterWorld "https://cloud.example.com/d/13:04:05" "13:04:05" []).1 =
      Outcome.crashed ∧
    (backupIteration nilWriterWorld []).uploadRes = some Outcome.crashed := by
  decide

/-! ## One pass of the backup loop -/

/-- The steps of a concatenation. -/
theorem steps_append (a b : Trace) : steps (a ++ b) = steps a ++ steps b := by
  unfold steps
  rw [List.filterMap_append]

/-- No effects, no steps. -/
theorem steps_nil : steps [] = [] := rfl

/-- Reading the clock starts no step. -/
theorem steps_now (l : Trace) : steps (Event.now :: l) = steps l := by
  simp [steps, Event.step]

/-- Printing starts no step. -/
theorem steps_printed (text : String) (l : Trace) : steps (Event.printed text :: l) = steps l := by
  simp [steps, Event.step]

/-- The removals of a concatenation. -/
theorem removals_append (a b : Trace) : removals (a ++ b) = removals a ++ removals b := by
  unfold removals
  rw [List.filterMap_append]

/-- No effects, no removals. -/
theorem removals_nil : removals [] = [] := rfl

/-- Reading the clock removes nothing. -/
theorem removals_now (l : Trace) : removals (Event.now :: l) = removals l := by
  simp [removals]

/-- Printing removes nothing. -/
theorem removals_printed (text : String) (l : Trace) :
    removals (Event.printed text :: l) = removals l := by
  simp [removals]

/-- A file is among the removals exactly when its removal is among the effects. -/
theorem mem_removals (ev : Trace) (path : String) :
    path ∈ removals ev ↔ Event.remove path ∈ ev := by
  unfold removals
  rw [List.mem_filterMap]
  constructor
  · rintro ⟨e, he, hs⟩
    cases e <;> simp at hs
    subst hs
    exact he
  · intro h
    exact ⟨_, h, rfl⟩

/-- The function `dirNameExists` extends the trace, by the directory check; it removes no file. -/
theorem dirNameExists_frame (w : World) (dirName : String) (t : Trace) :
    ∃ ev, (dirNameExists w dirName t).2 = t ++ ev ∧ steps ev = [Step.check] ∧
      removals ev = [] := by
  rw [dirNameExists_eq]
  unfold dirOpResult
  cases dirOutcome w "GET" dirName t with
  | error e => exact ⟨_, rfl, by simp [steps, Event.step], by simp [removals]⟩
  | ok r => exact ⟨_, rfl, by simp [steps, Event.step], by simp [removals]⟩

/-- The function `createDirName` extends the trace, by the directory creation; it removes no file. -/
theorem createDirName_frame (w : World) (dirName : String) (t : Trace) :
    ∃ ev, (createDirName w dirName t).2 = t ++ ev ∧ steps ev = [Step.create] ∧
      removals ev = [] := by
  rw [createDirName_eq]
  unfold dirOpResult
  cases dirOutcome w "MKCOL" dirName t with
  | error e => exact ⟨_, rfl, by simp [steps, Event.step], by simp [removals]⟩
  | ok r => exact ⟨_, rfl, by simp [steps, Event.step], by simp [removals]⟩

/-- The function `deleteDirName` extends the trace and starts no step of the backup pass. -/
theorem deleteDirName_frame (w : World) (dirName : String) (t : Trace) :
    ∃ ev, (deleteDirName w dirName t).2 = t ++ ev ∧ steps ev = [] := by
  rw [deleteDirName_eq]
  unfold dirOpResult
  cases dirOutcome w "DELETE" dirName t with
  | error e => exact ⟨_, rfl, by simp [steps, Event.step]⟩
  | ok r => exact ⟨_, rfl, by simp [steps, Event.step]⟩

/-- The function `uploadFileMultipart` extends the trace, by the upload; it removes no file. -/
theorem uploadFileMultipart_frame (w : World) (url path : String) (t : Trace) :
    ∃ ev, (uploadFileMultipart w url path t).2 = t ++ ev ∧ steps ev = [Step.upload] ∧
      removals ev = [] := by
  rw [uploadFileMultipart_eq]
  unfold uploadResult
  cases w.openFile (t ++ [Event.openFile path]) path with
  | error e => exact ⟨_, rfl, by simp [steps, Event.step], by simp [removals]⟩
  | ok file =>
    cases w.parseURL url with
    | some e => exact ⟨_, rfl, by simp [steps, Event.step], by simp [removals]⟩
    | none =>
      by_cases hp : goroutinePanics (uploadFaults w path t) file = true
      · refine ⟨[Event.openFile path, Event.newRequest "PUT" url,
          Event.send (uploadRequest w url path file t)], ?_, ?_, ?_⟩
        · simp [uploadSent, hp]
        · simp [steps, Event.step]
        · simp [removals]
      · refine ⟨[Event.openFile path, Event.newRequest "PUT" url,
          Event.send (uploadRequest w url path file t), Event.closeFile path], ?_, ?_, ?_⟩
        · simp [uploadSent, hp]
        · simp [steps, Event.step]
        · simp [removals]

/-- The function `createBackup` extends the trace, by the dump of the file it is given; it removes no file. -/
theorem createBackup_frame (w : World) (fileName : String) (t : Trace) :
    ∃ ev, (createBackup w fileName t).2 = t ++ ev ∧ steps ev = [Step.dump] ∧
      removals ev = [] ∧ Event.run "pg_dumpall" ["-f", fileName] ∈ ev := by
  unfold createBackup
  simp only [List.append_assoc]
  exact ⟨_, rfl, by simp [steps, Event.step], by simp [removals], by simp⟩

/-- The function `deleteLocalBackup` extends the trace, by the removal of the file it is given. -/
theorem deleteLocalBackup_frame (w : World) (fileName : String) (t : Trace) :
    ∃ ev, (deleteLocalBackup w fileName t).2 = t ++ ev ∧ steps ev = [Step.delete] ∧
      removals ev = [fileName] := by
  unfold deleteLocalBackup
  exact ⟨[Event.remove fileName], by simp, by simp [steps, Event.step], by simp [removals]⟩

/-- The shape of one pass of the backup loop: the steps started, which results are recorded, the files removed, and the dump that is run. -/
theorem iteration_shape (w : World) (t : Trace) :
    ∃ ev, (backupIteration w t).trace = t ++ ev ∧
      steps ev = Step.dump ::
        ((if (backupIteration w t).existsRes.isSome then [Step.check] else []) ++
         (if (backupIteration w t).createRes.isSome then [Step.create] else []) ++
         (if (backupIteration w t).uploadRes.isSome then [Step.upload] else []) ++
         (if (backupIteration w t).deleteRes.isSome then [Step.delete] else [])) ∧
      ((backupIteration w t).existsRes.isSome ↔ (backupIteration w t).backup = none) ∧
      ((backupIteration w t).createRes.isSome ↔
        (backupIteration w t).existsRes = some (false, none)) ∧
      ((backupIteration w t).uploadRes.isSome ↔
        ((backupIteration w t).existsRes = some (true, none) ∨
          ∃ made, (backupIteration w t).createRes = some (made, none))) ∧
      ((backupIteration w t).deleteRes.isSome ↔
        ∃ resp, (backupIteration w t).uploadRes = some (.returned (resp, none))) ∧
      removals ev =
        (if (backupIteration w t).deleteRes.isSome then [(backupIteration w t).fileName]
         else []) ∧
      Event.run "pg_dumpall" ["-f", (backupIteration w t).fileName] ∈ ev := by
  unfold backupIteration getDirName getFileName timeNow println
  simp only []
  generalize (w.clock (t ++ [Event.now])).formatDateOnly = d
  generalize (w.clock (t ++ [Event.now] ++ [Event.now])).formatTimeOnly = f
  obtain ⟨ev1, h1, s1, r1, m1⟩ := createBackup_frame w f (t ++ [Event.now] ++ [Event.now])
  rw [h1]
  cases hcb : (createBackup w f (t ++ [Event.now] ++ [Event.now])).1 with
  | some err =>
    refine ⟨[Event.now, Event.now] ++ ev1 ++ [Event.printed (err ++ "\n")], ?_, ?_⟩
    · simp [List.append_assoc]
    · simp [steps_append, s1, steps_now, steps_printed, steps_nil,
        removals_append, r1, removals_now, removals_printed, removals_nil, m1]
  | none =>
    simp only []
    obtain ⟨ev2, h2, s2, r2⟩ := dirNameExists_frame w d (t ++ [Event.now] ++ [Event.now] ++ ev1)
    rw [h2]
    cases hde : (dirNameExists w d (t ++ [Event.now] ++ [Event.now] ++ ev1)).1.2 with
    | some err =>
      refine ⟨[Event.now, Event.now] ++ ev1 ++ ev2 ++ [Event.printed (err ++ "\n")], ?_, ?_⟩
      · simp [List.append_assoc]
      · simp [steps_append, s1, s2, steps_now, steps_printed, steps_nil,
          removals_append, r1, r2, removals_now, removals_printed, removals_nil, m1]
    | none =>
      simp only []
      obtain ⟨ev3, h3, s3, r3⟩ :=
        createDirName_frame w d (t ++ [Event.now] ++ [Event.now] ++ ev1 ++ ev2)
      rw [h3]
      cases hfound : (dirNameExists w d (t ++ [Event.now] ++ [Event.now] ++ ev1)).1.1 with
      | false =>
        simp only [Bool.not_false, if_true]
        rcases hcr : (createDirName w d (t ++ [Event.now] ++ [Event.now] ++ ev1 ++ ev2)).1
          with ⟨made, _ | err⟩
        · simp only []
          obtain ⟨ev4, h4, s4, r4⟩ := uploadFileMultipart_frame w (uploadURL w d f) f
            (t ++ [Event.now] ++ [Event.now] ++ ev1 ++ ev2 ++ ev3)
          rw [h4]
          rcases hup : (uploadFileMultipart w (uploadURL w d f) f
            (t ++ [Event.now] ++ [Event.now] ++ ev1 ++ ev2 ++ ev3)).1
            with ⟨resp, _ | err⟩ | _
          · simp only []
            obtain ⟨ev5, h5, s5, r5⟩ := deleteLocalBackup_frame w f
              (t ++ [Event.now] ++ [Event.now] ++ ev1 ++ ev2 ++ ev3 ++ ev4)
            rw [h5]
            cases hrm : (deleteLocalBackup w f
              (t ++ [Event.now] ++ [Event.now] ++ ev1 ++ ev2 ++ ev3 ++ ev4)).1 with
            | some err =>
              refine ⟨[Event.now, Event.now] ++ ev1 ++ ev2 ++ ev3 ++ ev4 ++ ev5 ++
                [Event.printed (err ++ "\n")], ?_, ?_⟩
              · simp [List.append_assoc]
              · simp [steps_append, s1, s2, s3, s4, s5, steps_now, steps_printed, steps_nil,
                  removals_append, r1, r2, r3, r4, r5, removals_now, removals_printed,
                  removals_nil, m1]
            | none =>
              refine ⟨[Event.now, Event.now] ++ ev1 ++ ev2 ++ ev3 ++ ev4 ++ ev5, ?_, ?_⟩
              · simp [List.append_assoc]
              · simp [steps_append, s1, s2, s3, s4, s5, steps_now, steps_printed, steps_nil,
                  removals_append, r1, r2, r3, r4, r5, removals_now, removals_printed,
                  removals_nil, m1]
          · simp only []
            refine ⟨[Event.now, Event.now] ++ ev1 ++ ev2 ++ ev3 ++ ev4 ++
              [Event.printed (err ++ "\n")], ?_, ?_⟩
            · simp [List.append_assoc]
            · simp [steps_append, s1, s2, s3, s4, steps_now, steps_printed, steps_nil,
                removals_append, r1, r2, r3, r4, removals_now, removals_printed,
                removals_nil, m1]
          · simp only []
            refine ⟨[Event.now, Event.now] ++ ev1 ++ ev2 ++ ev3 ++ ev4, ?_, ?_⟩
            · simp [List.append_assoc]
            · simp [steps_append, s1, s2, s3, s4, steps_now, steps_printed, steps_nil,
                removals_append, r1, r2, r3, r4, removals_now, removals_printed,
                removals_nil, m1]
        · simp only []
          refine ⟨[Event.now, Event.now] ++ ev1 ++ ev2 ++ ev3 ++
            [Event.printed (err ++ "\n")], ?_, ?_⟩
          · simp [List.append_assoc]
          · simp [steps_append, s1, s2, s3, steps_now, steps_printed, steps_nil,
              removals_append, r1, r2, r3, removals_now, removals_printed, removals_nil, m1]
      | true =>
        simp only [Bool.not_true, Bool.false_eq_true, if_false]
        obtain ⟨ev4, h4, s4, r4⟩ := uploadFileMultipart_frame w (uploadURL w d f) f
          (t ++ [Event.now] ++ [Event.now] ++ ev1 ++ ev2)
        rw [h4]
        rcases hup : (uploadFileMultipart w (uploadURL w d f) f
          (t ++ [Event.now] ++ [Event.now] ++ ev1 ++ ev2)).1
          with ⟨resp, _ | err⟩ | _
        · simp only []
          obtain ⟨ev5, h5, s5, r5⟩ := deleteLocalBackup_frame w f
            (t ++ [Event.now] ++ [Event.now] ++ ev1 ++ ev2 ++ ev4)
          rw [h5]
          cases hrm : (deleteLocalBackup w f
            (t ++ [Event.now] ++ [Event.now] ++ ev1 ++ ev2 ++ ev4)).1 with
          | some err =>
            refine ⟨[Event.now, Event.now] ++ ev1 ++ ev2 ++ ev4 ++ ev5 ++
              [Event.printed (err ++ "\n")], ?_, ?_⟩
            · simp [List.append_assoc]
            · simp [steps_append, s1, s2, s4, s5, steps_now, steps_printed, steps_nil,
                removals_append, r1, r2, r4, r5, removals_now, removals_printed,
                removals_nil, m1]
          | none =>
            refine ⟨[Event.now, Event.now] ++ ev1 ++ ev2 ++ ev4 ++ ev5, ?_, ?_⟩
            · simp [List.append_assoc]
            · simp [steps_append, s1, s2, s4, s5, steps_now, steps_printed, steps_nil,
                removals_append, r1, r2, r4, r5, removals_now, removals_printed,
                removals_nil, m1]
        · simp only []
          refine ⟨[Event.now, Event.now] ++ ev1 ++ ev2 ++ ev4 ++
            [Event.printed (err ++ "\n")], ?_, ?_⟩
          · simp [List.append_assoc]
          · simp [steps_append, s1, s2, s4, steps_now, steps_printed, steps_nil,
              removals_append, r1, r2, r4, removals_now, removals_printed, removals_nil, m1]
        · simp only []
          refine ⟨[Event.now, Event.now] ++ ev1 ++ ev2 ++ ev4, ?_, ?_⟩
          · simp [List.append_assoc]
          · simp [steps_append, s1, s2, s4, steps_now, steps_printed, steps_nil,
              removals_append, r1, r2, r4, removals_now, removals_printed, removals_nil, m1]

/-- The two names of a pass. -/
theorem iteration_names (w : World) (t : Trace) :
    (backupIteration w t).dirName = (getDirName w t).1 ∧
    (backupIteration w t).fileName = (getFileName w (getDirName w t).2).1 := by
  unfold backupIteration
  simp only []
  split
  · exact ⟨rfl, rfl⟩
  · split
    · exact ⟨rfl, rfl⟩
    · split
      · exact ⟨rfl, rfl⟩
      · split
        · exact ⟨rfl, rfl⟩
        · split
          · exact ⟨rfl, rfl⟩
          · split <;> exact ⟨rfl, rfl⟩

/-- The results recorded in a pass are what the calls of that pass returned. -/
theorem iteration_results (w : World) (t : Trace) :
    (∃ t1, (backupIteration w t).backup =
      (createBackup w (backupIteration w t).fileName t1).1) ∧
    (∀ r, (backupIteration w t).existsRes = some r →
      ∃ t1, r = (dirNameExists w (backupIteration w t).dirName t1).1) ∧
    (∀ r, (backupIteration w t).createRes = some r →
      ∃ t1, r = (createDirName w (backupIteration w t).dirName t1).1) ∧
    (∀ r, (backupIteration w t).uploadRes = some r →
      ∃ t1, r = (uploadFileMultipart w
        (uploadURL w (backupIteration w t).dirName (backupIteration w t).fileName)
        (backupIteration w t).fileName t1).1) ∧
    (∀ r, (backupIteration w t).deleteRes = some r →
      ∃ t1, r = (deleteLocalBackup w (backupIteration w t).fileName t1).1) := by
  rw [(iteration_names w t).1, (iteration_names w t).2]
  unfold backupIteration
  simp only []
  generalize (getDirName w t).1 = d
  generalize (getFileName w (getDirName w t).2).1 = f
  generalize (getFileName w (getDirName w t).2).2 = t2
  cases hcb : (createBackup w f t2).1 with
  | some err => exact ⟨⟨t2, hcb.symm⟩, by simp⟩
  | none =>
    simp only []
    generalize (createBackup w f t2).2 = t3
    cases hde : (dirNameExists w d t3).1.2 with
    | some err =>
      refine ⟨⟨t2, hcb.symm⟩, ?_, by simp⟩
      intro r hr
      simp only [Option.some.injEq] at hr
      exact ⟨t3, by rw [← hr, ← hde]⟩
    | none =>
      simp only []
      have hex : ∀ r, some ((dirNameExists w d t3).1.1, (none : Option Error)) = some r →
          ∃ t1, r = (dirNameExists w d t1).1 := by
        intro r hr
        simp only [Option.some.injEq] at hr
        exact ⟨t3, by rw [← hr, ← hde]⟩
      generalize hfound : (dirNameExists w d t3).1.1 = found at hex ⊢
      generalize (dirNameExists w d t3).2 = t4
      cases found with
      | true =>
        simp only [Bool.not_true, Bool.false_eq_true, if_false]
        rcases hup : (uploadFileMultipart w (uploadURL w d f) f t4).1 with ⟨resp, _ | err⟩ | _
        · simp only []
          have hur : ∀ r, some (Outcome.returned (resp, (none : Option Error))) = some r →
              ∃ t1, r = (uploadFileMultipart w (uploadURL w d f) f t1).1 := by
            intro r hr
            simp only [Option.some.injEq] at hr
            exact ⟨t4, by rw [← hr, hup]⟩
          generalize (uploadFileMultipart w (uploadURL w d f) f t4).2 = t5
          cases hrm : (deleteLocalBackup w f t5).1 with
          | some err =>
            refine ⟨⟨t2, hcb.symm⟩, hex, by simp, hur, ?_⟩
            intro r hr
            simp only [Option.some.injEq] at hr
            exact ⟨t5, by rw [← hr, hrm]⟩
          | none =>
            refine ⟨⟨t2, hcb.symm⟩, hex, by simp, hur, ?_⟩
            intro r hr
            simp only [Option.some.injEq] at hr
            exact ⟨t5, by rw [← hr, hrm]⟩
        · simp only []
          refine ⟨⟨t2, hcb.symm⟩, hex, by simp, ?_, by simp⟩
          intro r hr
          simp only [Option.some.injEq] at hr
          exact ⟨t4, by rw [← hr, hup]⟩
        · simp only []
          refine ⟨⟨t2, hcb.symm⟩, hex, by simp, ?_, by simp⟩
          intro r hr
          simp only [Option.some.injEq] at hr
          exact ⟨t4, by rw [← hr, hup]⟩
      | false =>
        simp only [Bool.not_false, if_true]
        rcases hcr : (createDirName w d t4).1 with ⟨made, _ | err⟩
        · simp only []
          have hcx : ∀ r, some (made, (none : Option Error)) = some r →
              ∃ t1, r = (createDirName w d t1).1 := by
            intro r hr
            simp only [Option.some.injEq] at hr
            exact ⟨t4, by rw [← hr, hcr]⟩
          generalize (createDirName w d t4).2 = t4b
          rcases hup : (uploadFileMultipart w (uploadURL w d f) f t4b).1 with ⟨resp, _ | err⟩ | _
          · simp only []
            have hur : ∀ r, some (Outcome.returned (resp, (none : Option Error))) = some r →
                ∃ t1, r = (uploadFileMultipart w (uploadURL w d f) f t1).1 := by
              intro r hr
              simp only [Option.some.injEq] at hr
              exact ⟨t4b, by rw [← hr, hup]⟩
            generalize (uploadFileMultipart w (uploadURL w d f) f t4b).2 = t5
            cases hrm : (deleteLocalBackup w f t5).1 with
            | some err =>
              refine ⟨⟨t2, hcb.symm⟩, hex, hcx, hur, ?_⟩
              intro r hr
              simp only [Option.some.injEq] at hr
              exact ⟨t5, by rw [← hr, hrm]⟩
            | none =>
              refine ⟨⟨t2, hcb.symm⟩, hex, hcx, hur, ?_⟩
              intro r hr
              simp only [Option.some.injEq] at hr
              exact ⟨t5, by rw [← hr, hrm]⟩
          · simp only []
            refine ⟨⟨t2, hcb.symm⟩, hex, hcx, ?_, by simp⟩
            intro r hr
            simp only [Option.some.injEq] at hr
            exact ⟨t4b, by rw [← hr, hup]⟩
          · simp only []
            refine ⟨⟨t2, hcb.symm⟩, hex, hcx, ?_, by simp⟩
            intro r hr
            simp only [Option.some.injEq] at hr
            exact ⟨t4b, by rw [← hr, hup]⟩
        · simp only []
          refine ⟨⟨t2, hcb.symm⟩, hex, ?_, by simp, by simp⟩
          intro r hr
          simp only [Option.some.injEq] at hr
          exact ⟨t4, by rw [← hr, hcr]⟩

/-- A pass extends the trace by its effects. -/
theorem iteration_trace (w : World) (t : Trace) :
    (backupIteration w t).trace = t ++ iterationEvents w t := by
  obtain ⟨ev, h, _⟩ := iteration_shape w t
  unfold iterationEvents
  rw [h, List.drop_left]

/-- The steps of a pass in terms of the results recorded. -/
theorem iteration_steps (w : World) (t : Trace) :
    steps (iterationEvents w t) = Step.dump ::
        ((if (backupIteration w t).existsRes.isSome then [Step.check] else []) ++
         (if (backupIteration w t).createRes.isSome then [Step.create] else []) ++
         (if (backupIteration w t).uploadRes.isSome then [Step.upload] else []) ++
         (if (backupIteration w t).deleteRes.isSome then [Step.delete] else [])) := by
  obtain ⟨ev, h, hs, _⟩ := iteration_shape w t
  unfold iterationEvents
  rw [h, List.drop_left]
  exact hs

/-- The files removed in a pass: the dump file of the pass when the local deletion ran, none otherwise. -/
theorem iteration_removals (w : World) (t : Trace) :
    removals (iterationEvents w t) =
      (if (backupIteration w t).deleteRes.isSome then [(backupIteration w t).fileName]
       else []) := by
  obtain ⟨ev, h, _, _, _, _, _, hr, _⟩ := iteration_shape w t
  unfold iterationEvents
  rw [h, List.drop_left]
  exact hr

/-- The dump of a pass is written to the dump file of the pass. -/
theorem iteration_dump (w : World) (t : Trace) :
    Event.run "pg_dumpall" ["-f", (backupIteration w t).fileName] ∈ iterationEvents w t := by
  obtain ⟨ev, h, _, _, _, _, _, _, hm⟩ := iteration_shape w t
  unfold iterationEvents
  rw [h, List.drop_left]
  exact hm

/-- The local deletion is started exactly by a file removal. -/
theorem mem_steps_delete (ev : Trace) :
    Step.delete ∈ steps ev ↔ ∃ path, Event.remove path ∈ ev := by
  unfold steps
  rw [List.mem_filterMap]
  constructor
  · rintro ⟨e, he, hs⟩
    cases e <;> simp [Event.step] at hs
    · split_ifs at hs <;> simp at hs
    · exact ⟨_, he⟩
  · rintro ⟨path, h⟩
    exact ⟨_, h, rfl⟩

/-- The whole pass when the dump fails. -/
theorem iteration_dump_failed (w : World) (t : Trace) (e : Error)
    (h : (backupIteration w t).backup = some e) :
    ∃ out errOut, iterationEvents w t =
      [Event.now, Event.now, Event.run "pg_dumpall" ["-f", (backupIteration w t).fileName],
        Event.printed out, Event.printed errOut, Event.printed (e ++ "\n")] := by
  unfold iterationEvents
  unfold backupIteration at h ⊢
  simp only [] at h ⊢
  cases hcb : (createBackup w (getFileName w (getDirName w t).2).1
      (getFileName w (getDirName w t).2).2).1 with
  | some err =>
    rw [hcb] at h
    simp only [Option.some.injEq] at h
    subst h
    simp only [hcb]
    unfold createBackup println getFileName getDirName timeNow
    simp only [List.append_assoc, List.singleton_append, List.cons_append, List.nil_append,
      List.drop_left]
    exact ⟨_, _, rfl⟩
  | none =>
    rw [hcb] at h
    simp only [] at h
    split at h
    · simp at h
    · split at h
      · simp at h
      · split at h
        · simp at h
        · split at h
          · simp at h
          · split at h <;> simp at h


/-! ## The retention cycle -/

/-- The error `cleanOldBackups` returns, in terms of its two calls. -/
theorem cleanOldBackups_result (w : World) (t : Trace) :
    (cleanOldBackups w t).1 =
      match (dirNameExists w (cleanName w t) (t ++ [Event.now])).1 with
      | (_, some err) => some err
      | (false, none) => none
      | (true, none) =>
        (deleteDirName w (cleanName w t) (dirNameExists w (cleanName w t) (t ++ [Event.now])).2).1.2 := by
  unfold cleanOldBackups timeNow cleanName
  simp only []
  generalize dirNameExists w _ _ = r
  obtain ⟨⟨found, err⟩, t2⟩ := r
  cases found <;> cases err <;> try rfl
  simp only []
  generalize deleteDirName w _ _ = r2
  obtain ⟨⟨b, err2⟩, t3⟩ := r2
  cases err2 <;> rfl

/-- For a valid clock reading the name computed by the code is the name of the specification, when the clocks of the zone show the reading three days earlier. -/
theorem cleanName_eq (w : World) (t : Trace) (hv : (w.clock (t ++ [Event.now])).Valid)
    (hlo : 1 ≤ (w.clock (t ++ [Event.now])).year)
    (hhi : (w.clock (t ++ [Event.now])).year ≤ 9999)
    (hz : w.zone.Shows (w.clock (t ++ [Event.now])).threeDaysEarlier) :
    cleanName w t = retentionName w t := by
  unfold cleanName retentionName
  rw [addDate_minus_three _ _ hv (by omega) (by omega) hz]

/-- Closed form of `cleanOldBackups`. -/
theorem cleanOldBackups_closed (w : World) (t : Trace) :
    cleanOldBackups w t =
      match w.parseURL (dirURL w (cleanName w t)) with
      | some err =>
        (some err, t ++ [Event.now, Event.newRequest "GET" (dirURL w (cleanName w t))])
      | none =>
        match (dirNameExists w (cleanName w t) (t ++ [Event.now])).1 with
        | (_, some err) =>
          (some err, t ++ [Event.now, Event.newRequest "GET" (dirURL w (cleanName w t)),
            Event.send (dirRequest w "GET" (cleanName w t))])
        | (false, none) =>
          (none, t ++ [Event.now, Event.newRequest "GET" (dirURL w (cleanName w t)),
            Event.send (dirRequest w "GET" (cleanName w t))])
        | (true, none) =>
          ((deleteDirName w (cleanName w t)
              (dirNameExists w (cleanName w t) (t ++ [Event.now])).2).1.2,
            t ++ [Event.now, Event.newRequest "GET" (dirURL w (cleanName w t)),
              Event.send (dirRequest w "GET" (cleanName w t)),
              Event.newRequest "DELETE" (dirURL w (cleanName w t)),
              Event.send (dirRequest w "DELETE" (cleanName w t))]) := by
  unfold cleanOldBackups timeNow
  simp only []
  rw [show ((w.clock (t ++ [Event.now])).addDate w.zone 0 0 (-3)).formatDateOnly = cleanName w t from rfl]
  generalize cleanName w t = name
  simp only [dirNameExists_eq, deleteDirName_eq]
  unfold dirOpResult dirOutcome
  cases hp : w.parseURL (dirURL w name) with
  | some e => simp
  | none =>
    simp only []
    cases hr : w.roundTrip (t ++ [Event.now] ++ [Event.newRequest "GET" (dirURL w name),
        Event.send (dirRequest w "GET" name)]) (dirRequest w "GET" name) with
    | response resp =>
      cases hc : (resp.statusCode == 200)
      · simp [hc]
      · simp only [hc]
        cases hr2 : w.roundTrip (t ++ [Event.now] ++ [Event.newRequest "GET" (dirURL w name),
            Event.send (dirRequest w "GET" name)] ++ [Event.newRequest "DELETE" (dirURL w name),
            Event.send (dirRequest w "DELETE" name)]) (dirRequest w "DELETE" name) <;> simp
    | failure e => simp
    | redirectFailure resp e => simp

/-- The retention pass at a clock reading that is a date of the calendar in the
years 1 to 9999, when the clocks of the zone show the same time of day three
days earlier: `cleanOldBackups` first builds the existence check (GET) for the
directory named by the date three days earlier, written YYYY-MM-DD.  If the
check returns `(true, nil)` it sends, after the GET, exactly one DELETE for the
same name and returns the error of `deleteDirName`; if the check returns
`(false, nil)` the GET is the only request and it returns nil; if the check
returns an error it sends nothing more and returns that error. -/
theorem cleanOldBackups_three_days_earlier (w : World) (t : Trace)
    (hv : (w.clock (t ++ [Event.now])).Valid)
    (hlo : 1 ≤ (w.clock (t ++ [Event.now])).year)
    (hhi : (w.clock (t ++ [Event.now])).year ≤ 9999)
    (hz : w.zone.Shows (w.clock (t ++ [Event.now])).threeDaysEarlier) :
    retentionName w t =
      isoDate (w.clock (t ++ [Event.now])).threeDaysEarlier.year.toNat
        (w.clock (t ++ [Event.now])).threeDaysEarlier.month
        (w.clock (t ++ [Event.now])).threeDaysEarlier.day ∧
    (cleanOldBackups w t).2 = t ++ cleanEvents w t ∧
    (cleanEvents w t).take 2 =
      [Event.now, Event.newRequest "GET" (dirURL w (retentionName w t))] ∧
    ((dirNameExists w (retentionName w t) (t ++ [Event.now])).1 = (true, none) →
      requests (cleanEvents w t) =
        [("GET", dirURL w (retentionName w t)), ("DELETE", dirURL w (retentionName w t))] ∧
      (cleanOldBackups w t).1 =
        (deleteDirName w (retentionName w t)
          (dirNameExists w (retentionName w t) (t ++ [Event.now])).2).1.2) ∧
    ((dirNameExists w (retentionName w t) (t ++ [Event.now])).1 = (false, none) →
      requests (cleanEvents w t) = [("GET", dirURL w (retentionName w t))] ∧
      (cleanOldBackups w t).1 = none) ∧
    (∀ found err, (dirNameExists w (retentionName w t) (t ++ [Event.now])).1 = (found, some err) →
      (requests (cleanEvents w t) = [] ∨
        requests (cleanEvents w t) = [("GET", dirURL w (retentionName w t))]) ∧
      (cleanOldBackups w t).1 = some err) := by
  refine ⟨?_, ?_⟩
  · obtain ⟨⟨w1, w2, w3, w4, _⟩, _, yhi⟩ :=
      threeDaysEarlier_valid (w.clock (t ++ [Event.now])) hv (by omega) (by omega)
    have ylo := threeDaysEarlier_year (w.clock (t ++ [Event.now]))
    have hd31 := le_trans w4 (daysIn_le _ _)
    unfold retentionName
    exact formatDateOnly_iso _ (by omega) (by omega) (by omega) (by omega)
  have hn := cleanName_eq w t hv hlo hhi hz
  have hc := cleanOldBackups_closed w t
  rw [hn] at hc
  unfold cleanEvents
  rw [hc]
  generalize retentionName w t = name
  cases hp : w.parseURL (dirURL w name) with
  | some e =>
    have hd : (dirNameExists w name (t ++ [Event.now])).1 = (false, some e) := by
      rw [dirNameExists_eq]
      simp [dirOpResult, dirOutcome, hp]
    simp [hd, requests]
  | none =>
    simp only []
    rcases hd : (dirNameExists w name (t ++ [Event.now])).1 with ⟨_ | _, _ | err⟩ <;>
      simp [requests, dirRequest]

set_option maxRecDepth 100000 in
/-- On 2024-01-10 the directory checked and deleted is "2024-01-07". -/
theorem cleanOldBackups_on_2024_01_10 :
    retentionName deletedWorld [] = "2024-01-07" ∧
    requests (cleanEvents deletedWorld []) =
      [("GET", "https://cloud.example.com/remote.php/dav/files/alice/2024-01-07"),
       ("DELETE", "https://cloud.example.com/remote.php/dav/files/alice/2024-01-07")] ∧
    (cleanOldBackups deletedWorld []).1 = none :=
  ⟨by decide,
   ((cleanOldBackups_three_days_earlier deletedWorld [] (by decide) (by decide)
      (by decide) (by decide)).2.2.2.1 (by decide)).1.trans (by decide),
   by decide⟩

/-! ## The claims -/

/-- C1 fails on the code.  The file opens, the request is built and sent, and the
producer step `io.Copy` fails ("io: read/write on closed pipe"); but the server
has answered 401 while only the first producer step had taken effect, and
`writeErr`, which is read without waiting for the goroutine, is still nil: the
call returns the response with a nil error instead of `(nil, e)`. -/
theorem upload_misses_late_producer_failure :
    earlyAnswerWorld.openFile [Event.openFile "13:04:05"] "13:04:05" = .ok [1, 2, 3, 4, 5] ∧
    earlyAnswerWorld.parseURL "https://cloud.example.com/d/13:04:05" = none ∧
    earlyAnswerWorld.observed
      (uploadSent earlyAnswerWorld "https://cloud.example.com/d/13:04:05" "13:04:05"
        [1, 2, 3, 4, 5] []) = 1 ∧
    firstFailure (faultErrors (uploadFaults earlyAnswerWorld "13:04:05" [])) =
      some "io: read/write on closed pipe" ∧
    (uploadFileMultipart earlyAnswerWorld "https://cloud.example.com/d/13:04:05" "13:04:05" []).1 =
      Outcome.returned (some { statusCode := 401 }, none) :=
  ⟨rfl, by decide, by decide, by decide, by decide⟩

/-- C4.  Each remote directory operation returns `(true, nil)` exactly when the
HTTP call returned a response with a nil error and the status is its success
code (`createDirName` 201, `dirNameExists` 200, `deleteDirName` 204);
`(false, nil)` exactly when the call returned a response with any other status;
`(false, err)` exactly when the request construction failed with `err` or the
HTTP call returned `err`; never `(true, err)`.  It sends at most one request,
with its own method, to the URL of the directory. -/
theorem dir_ops_status_contract :
    DirOpContract createDirName "MKCOL" 201 ∧ DirOpContract dirNameExists "GET" 200 ∧
      DirOpContract deleteDirName "DELETE" 204 :=
  ⟨contract_of_eq _ _ _ createDirName_eq, contract_of_eq _ _ _ dirNameExists_eq,
    contract_of_eq _ _ _ deleteDirName_eq⟩

set_option maxRecDepth 100000 in
/-- C5, as stated, fails.  A five-byte file is uploaded without any producer or
transport error (the server answers 201); the one request sent is the PUT, and
its body is not the five bytes of the file: it is 129 bytes long. -/
theorem put_body_is_not_the_file :
    (uploadFileMultipart createdWorld "https://cloud.example.com/d/13:04:05" "13:04:05" []).1 =
      Outcome.returned (some { statusCode := 201 }, none) ∧
    requests (uploadFileMultipart createdWorld "https://cloud.example.com/d/13:04:05"
      "13:04:05" []).2 = [("PUT", "https://cloud.example.com/d/13:04:05")] ∧
    Event.send (uploadRequest createdWorld "https://cloud.example.com/d/13:04:05" "13:04:05"
        [1, 2, 3, 4, 5] []) ∈
      (uploadFileMultipart createdWorld "https://cloud.example.com/d/13:04:05" "13:04:05" []).2 ∧
    (uploadRequest createdWorld "https://cloud.example.com/d/13:04:05" "13:04:05"
        [1, 2, 3, 4, 5] []).body.map Pipe.data ≠ some [1, 2, 3, 4, 5] ∧
    (uploadRequest createdWorld "https://cloud.example.com/d/13:04:05" "13:04:05"
        [1, 2, 3, 4, 5] []).body.map (fun p => p.data.length) = some 129 := by
  decide

/-- C5, amended.  When the file opens, the request is built and no producer step
fails, `uploadFileMultipart` sends one PUT request to the target URL whose body
is the multipart/form-data framing of the file: the header of a part named
"file", then exactly the bytes of the file in order, then the closing boundary,
then a clean end-of-stream. -/
theorem put_body_is_multipart_framing_of_file (w : World) (url path : String) (t : Trace)
    (file : Bytes)
    (hopen : w.openFile (t ++ [Event.openFile path]) path = .ok file)
    (hreq : w.parseURL url = none)
    (hok : firstFailure (faultErrors (uploadFaults w path t)) = none) :
    (uploadFileMultipart w url path t).2 =
      t ++ [Event.openFile path, Event.newRequest "PUT" url,
            Event.send (uploadRequest w url path file t), Event.closeFile path] ∧
    (uploadRequest w url path file t).method = "PUT" ∧
    (uploadRequest w url path file t).url = url ∧
    (uploadRequest w url path file t).contentType =
      some ("multipart/form-data; boundary=" ++ uploadBoundary w path t) ∧
    (uploadRequest w url path file t).body =
      some { data := partHeader (uploadBoundary w path t) "file" path ++ file ++
                      closingBoundary (uploadBoundary w path t),
             wclosed := some none } := by
  rw [uploadFileMultipart_eq]
  unfold uploadResult
  simp only [hopen, hreq, goroutinePanics_of_no_failure _ file hok]
  refine ⟨by simp [uploadSent], rfl, rfl, rfl, ?_⟩
  simp only [uploadRequest, producer_data_noFaults _ _ _ _ hok]

/-- Witness for C5, amended: the body sent for the five-byte file. -/
theorem put_body_is_multipart_framing_of_file_witness :
    (uploadRequest createdWorld "https://cloud.example.com/d/13:04:05" "13:04:05"
        [1, 2, 3, 4, 5] []).body =
      some { data := partHeader "b0" "file" "13:04:05" ++ [1, 2, 3, 4, 5] ++ closingBoundary "b0",
             wclosed := some none } :=
  (put_body_is_multipart_framing_of_file createdWorld "https://cloud.example.com/d/13:04:05"
    "13:04:05" [] [1, 2, 3, 4, 5] rfl (by decide) (by decide)).2.2.2.2

set_option maxRecDepth 100000 in
/-- C6, as stated, fails.  The upload is answered with status 403 and a nil
error; `uploadFileMultipart` returns that response with a nil error, and the
pass goes on to remove the local dump file. -/
theorem local_file_removed_after_rejected_upload :
    (backupIteration forbiddenWorld []).fileName = "13:04:05" ∧
    (backupIteration forbiddenWorld []).uploadRes =
      some (Outcome.returned (some { statusCode := 403 }, none)) ∧
    (backupIteration forbiddenWorld []).deleteRes = some none ∧
    Event.remove "13:04:05" ∈ iterationEvents forbiddenWorld [] := by
  decide

/-- C6, amended.  In every pass of the backup loop the dump is written to the
file named `fileName`, and that file is removed (`deleteLocalBackup` is called on
it) exactly when `uploadFileMultipart` was called on it and returned a nil
error; the status code of the response it returned is not looked at.  The pass
removes no other file, and the dump file at most once. -/
theorem local_file_removed_iff_upload_error_nil (w : World) (t : Trace) :
    Event.run "pg_dumpall" ["-f", (backupIteration w t).fileName] ∈ iterationEvents w t ∧
    (Event.remove (backupIteration w t).fileName ∈ iterationEvents w t ↔
      ∃ resp, (backupIteration w t).uploadRes = some (Outcome.returned (resp, none))) ∧
    ((backupIteration w t).deleteRes.isSome ↔
      ∃ resp, (backupIteration w t).uploadRes = some (Outcome.returned (resp, none))) ∧
    (removals (iterationEvents w t) =
      if (backupIteration w t).deleteRes.isSome then [(backupIteration w t).fileName] else []) ∧
    (∀ r, (backupIteration w t).uploadRes = some r →
      ∃ t1, r = (uploadFileMultipart w
        (uploadURL w (backupIteration w t).dirName (backupIteration w t).fileName)
        (backupIteration w t).fileName t1).1) ∧
    (∀ r, (backupIteration w t).deleteRes = some r →
      ∃ t1, r = (deleteLocalBackup w (backupIteration w t).fileName t1).1) := by
  obtain ⟨ev, h, hs, g1, g2, g3, g4, g5, g6⟩ := iteration_shape w t
  have hrem := iteration_removals w t
  refine ⟨iteration_dump w t, ?_, g4, hrem, (iteration_results w t).2.2.2.1,
    (iteration_results w t).2.2.2.2⟩
  rw [← mem_removals, hrem, ← g4]
  cases (backupIteration w t).deleteRes.isSome <;> simp

set_option maxRecDepth 100000 in
/-- Witness for C6, amended: with the upload answered 403 the dump file
"13:04:05" is removed. -/
theorem local_file_removed_iff_upload_error_nil_witness :
    Event.remove (backupIteration forbiddenWorld []).fileName ∈ iterationEvents forbiddenWorld [] :=
  (local_file_removed_iff_upload_error_nil forbiddenWorld []).2.1.mpr
    ⟨some { statusCode := 403 }, by decide⟩

set_option maxRecDepth 100000 in
/-- C7, as stated, fails.  The server refuses the DELETE with 403:
`deleteDirName` returns `(false, nil)` and `cleanOldBackups` returns nil.  The
server refuses the MKCOL with 405: `createDirName` returns `(false, nil)` and the
pass goes on to the upload. -/
theorem false_results_are_not_reported :
    (dirNameExists refusedDeleteWorld (cleanName refusedDeleteWorld []) [Event.now]).1 =
      (true, none) ∧
    (deleteDirName refusedDeleteWorld (cleanName refusedDeleteWorld [])
      (dirNameExists refusedDeleteWorld (cleanName refusedDeleteWorld []) [Event.now]).2).1 =
      (false, none) ∧
    (cleanOldBackups refusedDeleteWorld []).1 = none ∧
    (backupIteration refusedCreateWorld []).createRes = some (false, none) ∧
    (backupIteration refusedCreateWorld []).uploadRes =
      some (Outcome.returned (some { statusCode := 405 }, none)) ∧
    Step.upload ∈ steps (iterationEvents refusedCreateWorld []) := by
  decide

/-- C7, amended.  The boolean of `deleteDirName` and of `createDirName` is
discarded by the callers.  When the directory exists and `deleteDirName` returns
a nil error, with `true` or with `false`, `cleanOldBackups` returns nil.  When
`createDirName` returns a nil error in a pass of the backup loop, with `true` or
with `false`, the pass goes on to attempt the upload. -/
theorem only_errors_are_reported (w : World) (t : Trace) :
    ((dirNameExists w (cleanName w t) (t ++ [Event.now])).1 = (true, none) →
      ∀ removed, (deleteDirName w (cleanName w t)
          (dirNameExists w (cleanName w t) (t ++ [Event.now])).2).1 = (removed, none) →
        (cleanOldBackups w t).1 = none) ∧
    (∀ made, (backupIteration w t).createRes = some (made, none) →
      (backupIteration w t).uploadRes.isSome ∧ Step.upload ∈ steps (iterationEvents w t)) ∧
    (∀ r, (backupIteration w t).createRes = some r →
      ∃ t1, r = (createDirName w (backupIteration w t).dirName t1).1) := by
  refine ⟨?_, ?_, (iteration_results w t).2.2.1⟩
  · intro hex removed hdel
    rw [cleanOldBackups_result, hex]
    simp only [hdel]
  · intro made hc
    obtain ⟨ev, h, hs, g1, g2, g3, g4, g5, g6⟩ := iteration_shape w t
    have hu : (backupIteration w t).uploadRes.isSome = true := g3.mpr (Or.inr ⟨made, hc⟩)
    refine ⟨hu, ?_⟩
    rw [iteration_steps, hu]
    simp

set_option maxRecDepth 100000 in
/-- Witness for C7, amended: the refused DELETE and the refused MKCOL. -/
theorem only_errors_are_reported_witness :
    (cleanOldBackups refusedDeleteWorld []).1 = none ∧
    ((backupIteration refusedCreateWorld []).uploadRes.isSome ∧
      Step.upload ∈ steps (iterationEvents refusedCreateWorld [])) :=
  ⟨(only_errors_are_reported refusedDeleteWorld []).1 (by decide) false (by decide),
   (only_errors_are_reported refusedCreateWorld []).2.1 false (by decide)⟩

/-- C8.  In every pass of the backup loop the steps start in the order dump,
directory check, directory creation, upload, local deletion, beginning with the
dump.  The check runs exactly when `createBackup` returned nil; the creation
exactly when moreover the check returned `(false, nil)`; the upload exactly when
the check returned `(true, nil)`, or `(false, nil)` and the creation returned a
nil error; the deletion exactly when the upload ran and returned a nil error.
When `createBackup` returns an error the pass consists of the two clock
readings, the run of the dump tool and three lines of output: no directory
check, no creation, no upload, no deletion. -/
theorem backup_steps_ordered_and_gated (w : World) (t : Trace) :
    (backupIteration w t).trace = t ++ iterationEvents w t ∧
    (steps (iterationEvents w t)).Sublist
      [Step.dump, Step.check, Step.create, Step.upload, Step.delete] ∧
    (steps (iterationEvents w t)).head? = some Step.dump ∧
    (Step.check ∈ steps (iterationEvents w t) ↔ (backupIteration w t).backup = none) ∧
    (Step.create ∈ steps (iterationEvents w t) ↔
      (backupIteration w t).backup = none ∧
      (backupIteration w t).existsRes = some (false, none)) ∧
    (Step.upload ∈ steps (iterationEvents w t) ↔
      (backupIteration w t).backup = none ∧
      (((backupIteration w t).existsRes = some (true, none) ∧
          (backupIteration w t).createRes = none) ∨
       ((backupIteration w t).existsRes = some (false, none) ∧
          ∃ made, (backupIteration w t).createRes = some (made, none)))) ∧
    (Step.delete ∈ steps (iterationEvents w t) ↔
      Step.upload ∈ steps (iterationEvents w t) ∧
      ∃ resp, (backupIteration w t).uploadRes = some (Outcome.returned (resp, none))) ∧
    ((backupIteration w t).backup ≠ none ↔ steps (iterationEvents w t) = [Step.dump]) ∧
    (∀ e, (backupIteration w t).backup = some e →
      ∃ out errOut, iterationEvents w t =
        [Event.now, Event.now, Event.run "pg_dumpall" ["-f", (backupIteration w t).fileName],
          Event.printed out, Event.printed errOut, Event.printed (e ++ "\n")]) ∧
    ((∃ t1, (backupIteration w t).backup =
        (createBackup w (backupIteration w t).fileName t1).1) ∧
     (∀ r, (backupIteration w t).existsRes = some r →
        ∃ t1, r = (dirNameExists w (backupIteration w t).dirName t1).1) ∧
     (∀ r, (backupIteration w t).createRes = some r →
        ∃ t1, r = (createDirName w (backupIteration w t).dirName t1).1) ∧
     (∀ r, (backupIteration w t).uploadRes = some r →
        ∃ t1, r = (uploadFileMultipart w
          (uploadURL w (backupIteration w t).dirName (backupIteration w t).fileName)
          (backupIteration w t).fileName t1).1) ∧
     (∀ r, (backupIteration w t).deleteRes = some r →
        ∃ t1, r = (deleteLocalBackup w (backupIteration w t).fileName t1).1)) := by
  obtain ⟨ev, h, hs, g1, g2, g3, g4, g5, g6⟩ := iteration_shape w t
  refine ⟨iteration_trace w t, ?_, ?_, ?_, ?_, ?_, ?_, ?_,
    fun e he => iteration_dump_failed w t e he, iteration_results w t⟩
  all_goals rw [iteration_steps]
  all_goals
    generalize backupIteration w t = it at g1 g2 g3 g4
    obtain ⟨dn, fn, bk, ex, cr, up, de, tr⟩ := it
    simp only at g1 g2 g3 g4 ⊢
    rcases ex with _ | ⟨_ | _, _ | _⟩ <;> rcases cr with _ | ⟨made, _ | _⟩ <;>
      rcases up with _ | (⟨resp, _ | _⟩ | _) <;> rcases de with _ | _ <;> cases bk <;>
      simp at g1 g2 g3 g4 ⊢

set_option maxRecDepth 100000 in
/-- Witness for C8: the dump tool fails, and the pass is the dump step alone,
without any HTTP request. -/
theorem backup_steps_ordered_and_gated_witness :
    steps (iterationEvents dumpFailsWorld []) = [Step.dump] ∧
    requests (iterationEvents dumpFailsWorld []) = [] :=
  ⟨(backup_steps_ordered_and_gated dumpFailsWorld []).2.2.2.2.2.2.2.1.mp (by decide),
   by decide⟩

set_option maxRecDepth 100000 in
/-- C9 fails on the code.  The clock reads 00:30:00 on 2026-09-09, a date of the
calendar, in a zone whose clocks go from midnight to 01:00 on 2026-09-06.
Three days earlier is 2026-09-06; `AddDate(0, 0, -3)` asks for 00:30:00 on that
day, a reading the clocks skip, and settles on 23:30:00 of the day before:
`cleanOldBackups` checks and deletes the directory "2026-09-05", four days
back, and leaves "2026-09-06" alone. -/
theorem clean_names_fourth_day_back_over_skipped_hour :
    skippedTimeWorld.clock [Event.now] =
      { year := 2026, month := 9, day := 9, hour := 0, minute := 30, second := 0 } ∧
    (skippedTimeWorld.clock [Event.now]).Valid ∧
    (skippedTimeWorld.clock [Event.now]).threeDaysEarlier =
      { year := 2026, month := 9, day := 6, hour := 0, minute := 30, second := 0 } ∧
    (skippedTimeWorld.clock [Event.now]).addDate skippedTimeWorld.zone 0 0 (-3) =
      { year := 2026, month := 9, day := 5, hour := 23, minute := 30, second := 0 } ∧
    retentionName skippedTimeWorld [] = "2026-09-06" ∧
    requests (cleanEvents skippedTimeWorld []) =
      [("GET", "https://cloud.example.com/remote.php/dav/files/alice/2026-09-05"),
       ("DELETE", "https://cloud.example.com/remote.php/dav/files/alice/2026-09-05")] ∧
    (cleanOldBackups skippedTimeWorld []).1 = none := by
  decide

/-- C10.  In every run of `uploadFileMultipart` in which the file opens, the
request is built, no producer step fails and the HTTP call returns a response
with a nil error, the call returns that response with a nil error, whatever its
status code and whatever the goroutine schedule. -/
theorem upload_passes_any_status_through (w : World) (url path : String) (t : Trace)
    (file : Bytes) (resp : Response)
    (hopen : w.openFile (t ++ [Event.openFile path]) path = .ok file)
    (hreq : w.parseURL url = none)
    (hok : firstFailure (faultErrors (uploadFaults w path t)) = none)
    (hdo : uploadDo w url path file t = .response resp) :
    (uploadFileMultipart w url path t).1 = Outcome.returned (some resp, none) := by
  have hnone : ∀ k, firstFailure ((faultErrors (uploadFaults w path t)).take k) = none :=
    fun k => firstFailure_take_of_no_failure _ k hok
  rw [uploadFileMultipart_eq]
  unfold uploadResult
  simp only [hopen, hreq, hnone, hdo, DoResult.resp, DoResult.err,
    goroutinePanics_of_no_failure _ file hok, Bool.false_eq_true, if_false]

/-- Witness for C10: a 403 answer is returned as a response with a nil error. -/
theorem upload_passes_any_status_through_witness :
    (uploadFileMultipart forbiddenWorld "https://cloud.example.com/d/13:04:05" "13:04:05" []).1 =
      Outcome.returned (some { statusCode := 403 }, none) :=
  upload_passes_any_status_through forbiddenWorld "https://cloud.example.com/d/13:04:05"
    "13:04:05" [] [1, 2, 3, 4, 5] { statusCode := 403 } rfl (by decide) (by decide) (by decide)


end Pg2Nextcloud
